import Mathlib

/-!
Verification of the Rollia combat engine, intent annotator, pending-check
state machine and status normalizer.

Each definition below is a shallow embedding of the corresponding
TypeScript function of the repository:

- combat engine: `backend/src/services/combatService.ts`
- intent annotator: `annotateSegments` and its marker detectors
- pending-check lifecycle: the `/dm-response` route of
  `backend/src/routes/diceRoutes.ts`
- status normalizer: `normalizeStatusUpdate` of
  `backend/src/services/aiService.ts`

JavaScript numbers are modelled as `Int` (all the arithmetic the code
performs on them is integral), dice rolls are modelled by an explicit
random source `rng : Nat -> Nat` with a draw counter (the JS
`Math.floor(Math.random() * faces) + 1` becomes `1 + rng k % faces`,
which ranges over `[1, faces]` exactly as the source of randomness does),
and in-place mutation of a found array element becomes `updateFirst`.
-/

/-- Replaces the first element satisfying `p` by its image under `f`,
mirroring a JS mutation of the object returned by `Array.prototype.find`. -/
def updateFirst (p : α → Bool) (f : α → α) : List α → List α
  | [] => []
  | x :: xs => if p x then f x :: xs else x :: updateFirst p f xs

/-- Keeps the last `n` elements of a list: `Array.prototype.slice(-n)`. -/
def listTakeLast (n : Nat) (xs : List α) : List α :=
  xs.drop (xs.length - n)

/-- JS `Math.max(lo, Math.min(hi, value))` from `combatService.ts`. -/
def clamp (value lo hi : Int) : Int :=
  max lo (min hi value)

/-- One die roll: `Math.floor(Math.random() * faces) + 1` drawn from the
explicit random source at index `k`; returns the roll and the next index. -/
def rollDie (rng : Nat → Nat) (k : Nat) (faces : Nat) : Nat × Nat :=
  (1 + rng k % faces, k + 1)

inductive EntityType
  | player
  | enemy
  deriving DecidableEq, Repr

/-- One entry of `CombatEntity.statuses`. -/
structure StatusEntry where
  key : String
  duration : Int
  deriving DecidableEq, Repr

/-- `CombatEntity` of `combatService.ts`. -/
structure CombatEntity where
  id : String
  type : EntityType
  name : String
  hp : Int
  hp_max : Int
  mp : Option Int
  mp_max : Option Int
  statuses : List StatusEntry
  deriving DecidableEq, Repr

inductive CombatPhase
  | starting
  | player_turn
  | enemy_turn
  | resolving
  | ended
  deriving DecidableEq, Repr

/-- `CombatEvent` with the `data` record of each event type made explicit. -/
inductive CombatEvent
  | turnStart (actor : String)
  | attackResolved (actor target : String) (hit : Bool) (roll bonus total : Int)
      (critical fumble : Bool) (ac : Int)
  | damageApplied (target : String) (amount : Nat) (source : String) (remainingHp : Int)
  | enemyDefeated (target : String)
  | statusApplied (target : String) (statusKey : String)
  | statusRemoved (target : String) (statusKey : String)
  | moveResolved (actor : String) (target : Option String)
  | itemUsed (actor : String)
  | spellCast (actor : String)
  | attemptAction (actor : String) (target : Option String) (intent : String)
  | combatEnded (result : String)
  deriving DecidableEq, Repr

/-- `CombatState` of `combatService.ts`. -/
structure CombatState where
  id : String
  phase : CombatPhase
  round : Nat
  turn_index : Nat
  initiative_order : List String
  entities : List CombatEntity
  log : List CombatEvent
  deriving DecidableEq, Repr

inductive ActionKind
  | attack
  | defend
  | move
  | item
  | spell
  | attempt
  deriving DecidableEq, Repr

/-- `ActionIntent` of `combatService.ts` (the free-form `params` record,
which is only echoed into pass-through events, is not modelled). -/
structure ActionIntent where
  action : ActionKind
  actor : String
  target : Option String
  free_text : Option String
  deriving DecidableEq, Repr

/-- The `attackRoll` override accepted by `resolveAttack`. -/
structure AttackRoll where
  d20 : Option Int
  bonus : Option Int
  total : Option Int
  deriving DecidableEq, Repr

/-- The optional player HP/MP snapshot accepted by `resolveAction`. -/
structure PlayerSnapshot where
  hp : Option Int
  mp : Option Int
  deriving DecidableEq, Repr

/-- `state.log = [...state.log, ...events].slice(-20)`. -/
def appendLog (state : CombatState) (events : List CombatEvent) : CombatState :=
  { state with log := listTakeLast 20 (state.log ++ events) }

/-- Selects the d20 value of an attack: the override when supplied,
otherwise a fresh `rollDie(20)`; returns the value and the next draw index
(`combatService.ts` line 86). -/
def pickD20 (rng : Nat → Nat) (k : Nat) (roll : Option AttackRoll) : Int × Nat :=
  match roll.bind (·.d20) with
  | some d => (d, k)
  | none =>
    let (r, k') := rollDie rng k 20
    ((r : Int), k')

/-- Selects the attack bonus (`combatService.ts` lines 87-92). -/
def pickBonus (d20 : Int) (roll : Option AttackRoll) : Int :=
  match roll.bind (·.bonus) with
  | some b => b
  | none =>
    match roll.bind (·.total) with
    | some t => t - d20
    | none => 0

/-- Selects the attack total (`combatService.ts` line 93). -/
def pickTotal (d20 bonus : Int) (roll : Option AttackRoll) : Int :=
  match roll.bind (·.total) with
  | some t => t
  | none => d20 + bonus

/-- The base-damage roll of `resolveAttack` (`combatService.ts` line 104):
`attacker.type === 'player' ? rollDie(8) + 2 : rollDie(6) + 1`, returning
the base damage and the next draw index. -/
def rollBase (rng : Nat → Nat) (k : Nat) (attackerIsPlayer : Bool) : Nat × Nat :=
  if attackerIsPlayer then
    let r := rollDie rng k 8
    (r.1 + 2, r.2)
  else
    let r := rollDie rng k 6
    (r.1 + 1, r.2)

/-- The defended-damage adjustment of `resolveAttack` (`combatService.ts`
lines 106-111): a defending player target halves the damage, floored, with
a minimum of 1. -/
def applyDefending (targetIsDefendingPlayer : Bool) (damage : Nat) : Nat :=
  if targetIsDefendingPlayer then max 1 (damage / 2) else damage

/-- `resolveAttack` of `combatService.ts`: returns the updated state, the
events pushed by this call in order, and the next random-draw index. -/
def resolveAttack (rng : Nat → Nat) (state : CombatState) (intent : ActionIntent)
    (attackRoll : Option AttackRoll) (k : Nat) :
    CombatState × List CombatEvent × Nat :=
  match intent.target with
  | none => (state, [], k)
  | some targetId =>
    match state.entities.find? (fun e => e.id == intent.actor),
        state.entities.find? (fun e => e.id == targetId) with
    | some attacker, some target =>
      let dk := pickD20 rng k attackRoll
      let d20 := dk.1
      let k := dk.2
      let bonus := pickBonus d20 attackRoll
      let total := pickTotal d20 bonus attackRoll
      let critical := d20 == 20
      let fumble := d20 == 1
      let ac : Int := 10
      let hit := if critical then true else if fumble then false else total ≥ ac
      let ev1 := CombatEvent.attackResolved attacker.id target.id hit d20 bonus total
        critical fumble ac
      if hit then
        let br := rollBase rng k (attacker.type == EntityType.player)
        let k := br.2
        let baseDamage := br.1
        let damage0 : Nat := if critical then baseDamage * 2 else baseDamage
        let damage : Nat := applyDefending
          (target.type == EntityType.player &&
            (target.statuses.find? (fun s => s.key == "defending")).isSome)
          damage0
        let newHp := clamp (target.hp - damage) 0 target.hp_max
        let entities' := updateFirst (fun e => e.id == targetId)
          (fun e => { e with hp := newHp }) state.entities
        let evs := [ev1, CombatEvent.damageApplied target.id damage attacker.id newHp] ++
          (if newHp == 0 then [CombatEvent.enemyDefeated target.id] else [])
        ({ state with entities := entities' }, evs, k)
      else
        (state, [ev1], k)
    | _, _ => (state, [], k)

/-- `resolveDefend` of `combatService.ts`. -/
def resolveDefend (state : CombatState) (intent : ActionIntent) :
    CombatState × List CombatEvent :=
  match state.entities.find? (fun e => e.id == intent.actor) with
  | none => (state, [])
  | some actor =>
    let entities' :=
      if (actor.statuses.find? (fun s => s.key == "defending")).isSome then
        state.entities
      else
        updateFirst (fun e => e.id == intent.actor)
          (fun e => { e with statuses := e.statuses ++ [⟨"defending", 1⟩] }) state.entities
    ({ state with entities := entities' },
      [CombatEvent.statusApplied actor.id "defending"])

/-- `clearExpiredStatuses` of `combatService.ts`: decrements every duration,
keeps the survivors, and emits `STATUS_REMOVED` for each original status
whose key no longer appears among the survivors. -/
def clearExpiredStatuses (entity : CombatEntity) :
    CombatEntity × List CombatEvent :=
  let remaining := (entity.statuses.map
    (fun s => { s with duration := s.duration - 1 })).filter (fun s => s.duration > 0)
  let events := entity.statuses.filterMap (fun s =>
    if remaining.any (fun n => n.key == s.key) then none
    else some (CombatEvent.statusRemoved entity.id s.key))
  ({ entity with statuses := remaining }, events)

/-- `resolveEnemyTurn` of `combatService.ts`: every enemy that is alive at
entry attacks the first player entity, in roster order. -/
def resolveEnemyTurn (rng : Nat → Nat) (state : CombatState) (k : Nat) :
    CombatState × List CombatEvent × Nat :=
  match state.entities.find? (fun e => e.type == EntityType.player) with
  | none => (state, [], k)
  | some player =>
    let enemies := state.entities.filter
      (fun e => e.type == EntityType.enemy && e.hp > 0)
    let step := enemies.foldl (fun (acc : CombatState × List CombatEvent × Nat) enemy =>
      let res := resolveAttack rng acc.1
        { action := ActionKind.attack, actor := enemy.id, target := some player.id,
          free_text := none } none acc.2.2
      (res.1, acc.2.1 ++ [CombatEvent.turnStart enemy.id] ++ res.2.1, res.2.2))
      (state, [], k)
    (step.1, step.2.1 ++ [CombatEvent.turnStart player.id], step.2.2)

/-- `checkCombatEnd` of `combatService.ts`; the `Bool` is its return value. -/
def checkCombatEnd (state : CombatState) :
    CombatState × List CombatEvent × Bool :=
  let playerOpt := state.entities.find? (fun e => e.type == EntityType.player)
  let enemiesAlive := state.entities.any
    (fun e => e.type == EntityType.enemy && e.hp > 0)
  match playerOpt with
  | none =>
    ({ state with phase := CombatPhase.ended }, [CombatEvent.combatEnded "defeat"], true)
  | some player =>
    if player.hp ≤ 0 then
      ({ state with phase := CombatPhase.ended }, [CombatEvent.combatEnded "defeat"], true)
    else if !enemiesAlive then
      ({ state with phase := CombatPhase.ended }, [CombatEvent.combatEnded "victory"], true)
    else
      (state, [], false)

/-- The player-snapshot application at the head of `resolveAction`
(`combatService.ts` lines 201-209): the first player entity has its HP,
and when fully typed its MP, clamped to the snapshot values. -/
def applySnapshot (state : CombatState) (snap : Option PlayerSnapshot) : CombatState :=
  match snap with
  | none => state
  | some s =>
    match state.entities.find? (fun e => e.type == EntityType.player) with
    | none => state
    | some _ =>
      let apply1 := fun (e : CombatEntity) =>
        let e := match s.hp with
          | some h => { e with hp := clamp h 0 e.hp_max }
          | none => e
        match s.mp, e.mp, e.mp_max with
        | some m, some _, some mmax => { e with mp := some (clamp m 0 mmax) }
        | _, _, _ => e
      { state with entities :=
          updateFirst (fun e => e.type == EntityType.player) apply1 state.entities }

/-- The `switch (intent.action)` dispatch inside `resolveAction`. -/
def dispatchPlayerAction (rng : Nat → Nat) (state : CombatState)
    (intent : ActionIntent) (attackRoll : Option AttackRoll) (k : Nat) :
    CombatState × List CombatEvent × Nat :=
  match intent.action with
  | ActionKind.attack => resolveAttack rng state intent attackRoll k
  | ActionKind.defend =>
    let r := resolveDefend state intent
    (r.1, r.2, k)
  | ActionKind.move =>
    (state, [CombatEvent.moveResolved intent.actor intent.target], k)
  | ActionKind.item => (state, [CombatEvent.itemUsed intent.actor], k)
  | ActionKind.spell => (state, [CombatEvent.spellCast intent.actor], k)
  | ActionKind.attempt =>
    (state, [CombatEvent.attemptAction intent.actor intent.target
      (intent.free_text.getD "")], k)

/-- The per-entity status expiry pass `state.entities.forEach(clearExpiredStatuses)`. -/
def clearAllStatuses (state : CombatState) : CombatState × List CombatEvent :=
  let step := state.entities.foldl
    (fun (acc : List CombatEntity × List CombatEvent) e =>
      let r := clearExpiredStatuses e
      (acc.1 ++ [r.1], acc.2 ++ r.2)) ([], [])
  ({ state with entities := step.1 }, step.2)

/-- The body of `resolveAction` of `combatService.ts` after the battle
lookup: snapshot application, `TURN_START`, action dispatch, end check,
and on continuation the enemy turn, round increment, status expiry and
second end check, finishing with the log append. -/
def resolveActionState (rng : Nat → Nat) (state : CombatState) (intent : ActionIntent)
    (snap : Option PlayerSnapshot) (attackRoll : Option AttackRoll) (k : Nat) :
    CombatState × List CombatEvent × Nat :=
  let state := applySnapshot state snap
  let ev0 := [CombatEvent.turnStart intent.actor]
  let stepA := dispatchPlayerAction rng state intent attackRoll k
  let state := stepA.1
  let evA := stepA.2.1
  let k := stepA.2.2
  let endA := checkCombatEnd state
  if endA.2.2 then
    let events := ev0 ++ evA ++ endA.2.1
    (appendLog endA.1 events, events, k)
  else
    let state := { endA.1 with phase := CombatPhase.enemy_turn }
    let stepE := resolveEnemyTurn rng state k
    let state := { stepE.1 with round := stepE.1.round + 1, phase := CombatPhase.player_turn }
    let k := stepE.2.2
    let stepS := clearAllStatuses state
    let endB := checkCombatEnd stepS.1
    let events := ev0 ++ evA ++ stepE.2.1 ++ stepS.2 ++ endB.2.1
    (appendLog endB.1 events, events, k)

/-- JS `Map.prototype.get` on an association list. -/
def mapGet (k : String) : List (String × α) → Option α
  | [] => none
  | (k', v) :: rest => if k' == k then some v else mapGet k rest

/-- JS `Map.prototype.set`: replaces the binding in place when the key is
present, otherwise appends. -/
def mapSet (k : String) (v : α) : List (String × α) → List (String × α)
  | [] => [(k, v)]
  | (k', v') :: rest =>
    if k' == k then (k', v) :: rest else (k', v') :: mapSet k v rest

/-- JS `Map.prototype.delete`. -/
def mapDelete (k : String) : List (String × α) → List (String × α)
  | [] => []
  | (k', v') :: rest =>
    if k' == k then rest else (k', v') :: mapDelete k rest

/-- `startBattle` of `combatService.ts` over the `battles` map. -/
def startBattle (battles : List (String × CombatState)) (campaignId : String)
    (player : CombatEntity) (enemies : List CombatEntity) :
    List (String × CombatState) × CombatState :=
  let state : CombatState :=
    { id := campaignId ++ "-battle"
      phase := CombatPhase.player_turn
      round := 1
      turn_index := 0
      initiative_order := player.id :: enemies.map (·.id)
      entities := player :: enemies
      log := [] }
  let state := appendLog state [CombatEvent.turnStart player.id]
  (mapSet campaignId state battles, state)

/-- `resolveAction` of `combatService.ts` over the `battles` map; throwing
`Battle not found` becomes the `Except.error` branch. -/
def resolveAction (rng : Nat → Nat) (battles : List (String × CombatState))
    (campaignId : String) (intent : ActionIntent) (snap : Option PlayerSnapshot)
    (attackRoll : Option AttackRoll) (k : Nat) :
    Except String (List (String × CombatState) × CombatState × List CombatEvent × Nat) :=
  match mapGet campaignId battles with
  | none => Except.error "Battle not found"
  | some state =>
    let r := resolveActionState rng state intent snap attackRoll k
    Except.ok (mapSet campaignId r.1 battles, r.1, r.2.1, r.2.2)

/-- The apostrophe character, used by several marker phrases. -/
def apoC : Char := Char.ofNat 39

/-- A one-character apostrophe string. -/
def apoS : String := String.mk [apoC]

/-- JS regex `\w`: ASCII letters, digits and underscore. -/
def isWordChar (c : Char) : Bool :=
  c.isAlphanum || c == '_'

/-- The whitespace characters matched by JS `\s` on the inputs in play. -/
def isJsWs (c : Char) : Bool :=
  c == ' ' || c == '\t' || c == '\n' || c == '\r'

/-- Structural lowercasing (JS `toLowerCase`), evaluable by the kernel. -/
def strLower (s : String) : String :=
  String.mk (s.data.map Char.toLower)

/-- Structural whitespace trim of a character list. -/
def trimChars (cs : List Char) : List Char :=
  ((cs.dropWhile Char.isWhitespace).reverse.dropWhile Char.isWhitespace).reverse

/-- Structural `String.prototype.trim`, evaluable by the kernel. -/
def strTrim (s : String) : String :=
  String.mk (trimChars s.data)

/-- `matchAt p cs` holds when `p` is a prefix of `cs` and the position right
after it is a word boundary (end of input or a non-word character); this is
the suffix `\b` of the marker regexes. -/
def matchAt : List Char → List Char → Bool
  | [], [] => true
  | [], c :: _ => !isWordChar c
  | _ :: _, [] => false
  | p :: ps, c :: cs => p == c && matchAt ps cs

/-- Scans every position of the text, testing `p` on the suffix starting at
positions preceded by a word boundary (start of input or a non-word
character); this is the leading `\b` of the marker regexes. -/
def scanPositions (p : List Char → Bool) : Bool → List Char → Bool
  | prevBoundary, [] => prevBoundary && p []
  | prevBoundary, c :: cs =>
    (prevBoundary && p (c :: cs)) || scanPositions p (!isWordChar c) cs

/-- Case-insensitive `\bphrase\b` containment test, the meaning of each
literal alternative of the marker regexes. -/
def containsWordPhrase (phrase : String) (text : String) : Bool :=
  scanPositions (matchAt (phrase.data.map Char.toLower)) true (text.data.map Char.toLower)

/-- Tests a family of literal alternatives, as one alternation regex does. -/
def containsAnyPhrase (phrases : List String) (text : String) : Bool :=
  phrases.any (fun p => containsWordPhrase p text)

/-- Consumes a literal lead sequence, returning the rest on success. -/
def consumeLead : List Char → List Char → Option (List Char)
  | [], cs => some cs
  | _ :: _, [] => none
  | p :: ps, c :: cs => if p == c then consumeLead ps cs else none

/-- Matches `verb\s+to\b` at the head of `cs`, the core of the
`(i\s+)?(try|attempt)\s+to` marker. -/
def tryToAt (verb : List Char) (cs : List Char) : Bool :=
  match consumeLead verb cs with
  | none => false
  | some rest =>
    let rest' := rest.dropWhile isJsWs
    decide (rest'.length < rest.length) && matchAt ['t', 'o'] rest'

/-- `PAST_REF_MARKERS` of the intent annotator, with the optional-apostrophe
alternations expanded into explicit literal phrases. -/
def pastRefPhrases : List String :=
  ["i thought", "i tried", "turns out",
   "i couldnt", "i couldn" ++ apoS ++ "t",
   "i did", "i didnt", "i didn" ++ apoS ++ "t",
   "i was going to", "earlier", "a moment ago", "just now",
   "was", "were",
   "tried", "couldnt", "couldn" ++ apoS ++ "t",
   "didnt", "didn" ++ apoS ++ "t",
   "wasnt", "wasn" ++ apoS ++ "t",
   "werent", "weren" ++ apoS ++ "t",
   "my bad", "sorry", "oops",
   "i didnt mean", "i didn" ++ apoS ++ "t mean", "i just thought"]

/-- `REQUEST_MARKERS` of the intent annotator. -/
def requestPhrases : List String :=
  ["can you", "could you", "give me", "i ask for", "i order",
   "id like", "i" ++ apoS ++ "d like", "please",
   "barkeep", "bartender"]

/-- `detectPastRef` of the intent annotator. -/
def detectPastRef (text : String) : Bool :=
  containsAnyPhrase pastRefPhrases text

/-- `detectRequest` of the intent annotator. -/
def detectRequest (text : String) : Bool :=
  containsAnyPhrase requestPhrases text

/-- Quote characters recognized by the segmenter and speech detector. -/
def isQuoteChar (c : Char) : Bool :=
  c == '"' || c == '“' || c == '”'

/-- The whole-quotation test `/^["“”].+["“”]$/` on the trimmed text. -/
def quotedWhole (text : String) : Bool :=
  let cs := trimChars text.data
  decide (cs.length ≥ 3)
    && (match cs.head? with | some c => isQuoteChar c | none => false)
    && (match cs.getLast? with | some c => isQuoteChar c | none => false)
    && ((cs.drop 1).dropLast.all (fun c => c != '\n'))

/-- The `SPEECH_MARKERS` lead-in test `/^\s*i\s+(say|tell|ask)\b/i`. -/
def speechLeadIn (text : String) : Bool :=
  match (text.data.map Char.toLower).dropWhile isJsWs with
  | 'i' :: c :: rest =>
    isJsWs c &&
      (let rest' := (c :: rest).dropWhile isJsWs
       matchAt ['s', 'a', 'y'] rest' || matchAt ['t', 'e', 'l', 'l'] rest' ||
         matchAt ['a', 's', 'k'] rest')
  | _ => false

/-- `detectSpeech` of the intent annotator. -/
def detectSpeech (text : String) : Bool :=
  quotedWhole text || speechLeadIn text

/-- `detectActionNow` of the intent annotator; the optional `i\s+` lead of
each marker does not change which texts match, so the verbs are tested
directly at word boundaries. -/
def detectActionNow (text : String) : Bool :=
  containsAnyPhrase
    ["attack", "strike", "swing", "shoot", "stab", "slash", "kick", "punch",
     "grapple"] text
    || scanPositions
        (fun cs => tryToAt ['t', 'r', 'y'] cs ||
          tryToAt ['a', 't', 't', 'e', 'm', 'p', 't'] cs)
        true (text.data.map Char.toLower)
    || containsAnyPhrase
        ["jump", "climb", "flip", "vault", "sneak", "hide", "steal"] text

/-- Splits the text at the first quote character, when one exists. -/
def splitAtQuote : List Char → Option (List Char × List Char)
  | [] => none
  | c :: rest =>
    if isQuoteChar c then some ([], rest)
    else
      match splitAtQuote rest with
      | some (pre, post) => some (c :: pre, post)
      | none => none

/-- Fueled worker for the global replace `/["“”][^"“”]*["“”]/g` with the
empty string; each step consumes at least one character, so fuel equal to
the length of the input is enough. -/
def stripQuotedAux : Nat → List Char → List Char
  | 0, cs => cs
  | _ + 1, [] => []
  | fuel + 1, c :: rest =>
    if isQuoteChar c then
      match splitAtQuote rest with
      | some (_, post) => stripQuotedAux fuel post
      | none => c :: rest
    else c :: stripQuotedAux fuel rest

/-- `stripQuotedSegments` of the intent annotator: removes every quoted
span, then trims. -/
def stripQuotedSegments (text : String) : String :=
  String.mk (trimChars (stripQuotedAux text.data.length text.data))

/-- Plain (boundary-free) prefix test, for JS `String.prototype.includes`. -/
def matchLead : List Char → List Char → Bool
  | [], _ => true
  | _ :: _, [] => false
  | p :: ps, c :: cs => p == c && matchLead ps cs

/-- JS `hay.includes(needle)`. -/
def containsSub (needle hay : String) : Bool :=
  let rec go (n : List Char) : List Char → Bool
    | [] => matchLead n []
    | c :: cs => matchLead n (c :: cs) || go n cs
  go needle.data hay.data

/-- Maps every character outside `[a-z0-9\s]` to a space, the replace step
of `extractKeywords`. -/
def keywordChar (c : Char) : Char :=
  if ('a' ≤ c && c ≤ 'z') || ('0' ≤ c && c ≤ '9') || isJsWs c then c else ' '

/-- Splits on whitespace runs, the `split(/\s+/)` step of `extractKeywords`
(the empty head produced by leading whitespace never survives the length
filter, so it is not materialized). -/
def splitWsAux : List Char → List Char → List String
  | [], acc => if acc.isEmpty then [] else [String.mk acc.reverse]
  | c :: rest, acc =>
    if isJsWs c then
      if acc.isEmpty then splitWsAux rest []
      else String.mk acc.reverse :: splitWsAux rest []
    else splitWsAux rest (c :: acc)

/-- `extractKeywords`: lowercase, keep only `[a-z0-9\s]`, split on
whitespace, keep tokens longer than two characters. -/
def extractKeywords (text : String) : List String :=
  (splitWsAux ((text.data.map Char.toLower).map keywordChar) []).filter
    (fun w => w.length > 2)

inductive SegmentHint
  | SPEECH
  | REQUEST
  | ACTION_NOW
  | PAST_REF
  | PLAN
  | UNKNOWN
  deriving DecidableEq, Repr

/-- `Segment` of the intent annotator; `confidence` is kept in hundredths
(`40` stands for the source literal `0.4`, and so on — every confidence the
code assigns is an exact multiple of one hundredth). -/
structure Segment where
  id : String
  text : String
  hint : Option SegmentHint
  confidence : Option Nat
  anchorMatch : Option Bool
  noRollCandidate : Option Bool
  markers : List String
  deriving DecidableEq, Repr

/-- `LastResolvedAction`; an absent `keywords` field is the empty list. -/
structure LastResolvedAction where
  summary : String
  domain : String
  stat : Option String
  skill : Option String
  timestamp : Int
  keywords : List String
  deriving DecidableEq, Repr

/-- `hasAnchorMatch` of the intent annotator. -/
def hasAnchorMatch (segmentText : String)
    (lastResolvedAction : Option LastResolvedAction) : Bool :=
  match lastResolvedAction with
  | none => false
  | some lra =>
    let keywords := if lra.keywords.isEmpty then extractKeywords lra.summary
      else lra.keywords
    let lowered := strLower segmentText
    keywords.any (fun kw => kw != "" && containsSub kw lowered)

/-- `TRIVIAL_ITEMS` of the intent annotator. -/
def trivialItems (text : String) : Bool :=
  containsAnyPhrase ["ale", "water", "bread", "room", "information", "name"] text

/-- `AGGRESSION_WORDS` of the intent annotator. -/
def aggressionWords (text : String) : Bool :=
  containsAnyPhrase
    ["threaten", "insult", "intimidate", "steal", "refuse", "demand"] text

/-- The per-segment body of `annotateSegments`, translated statement by
statement: hint, confidence and markers evolve exactly as the sequence of
`if` blocks of the source mutates them. -/
def annotateOne (lastResolvedAction : Option LastResolvedAction)
    (segment : Segment) : Segment :=
  let anchorMatch := hasAnchorMatch (stripQuotedSegments segment.text) lastResolvedAction
  let pastRef := detectPastRef segment.text
  let st1 : SegmentHint × Nat × List String :=
    if pastRef then (SegmentHint.PAST_REF, 85, ["PAST_REF"])
    else (SegmentHint.UNKNOWN, 40, [])
  let st2 :=
    if anchorMatch && pastRef then
      (SegmentHint.PAST_REF, 95, st1.2.2 ++ ["ANCHOR_PAST_REF"])
    else st1
  let st3 :=
    if st2.1 ≠ SegmentHint.PAST_REF && detectSpeech segment.text then
      (SegmentHint.SPEECH, 80, st2.2.2 ++ ["SPEECH"])
    else st2
  let st4 :=
    if st3.1 ≠ SegmentHint.PAST_REF && detectRequest segment.text then
      (SegmentHint.REQUEST, 80, st3.2.2 ++ ["REQUEST"])
    else st3
  let st5 :=
    if st4.1 = SegmentHint.UNKNOWN && detectActionNow segment.text then
      (SegmentHint.ACTION_NOW, 70, st4.2.2 ++ ["ACTION_NOW"])
    else st4
  let noRollSt :=
    if st5.1 = SegmentHint.PAST_REF || st5.1 = SegmentHint.SPEECH then
      (true, st5.2.2)
    else if st5.1 = SegmentHint.REQUEST then
      if trivialItems segment.text && !aggressionWords segment.text then
        (true, st5.2.2 ++ ["TRIVIAL_REQUEST"])
      else (false, st5.2.2)
    else (false, st5.2.2)
  { segment with
      hint := some st5.1
      confidence := some st5.2.1
      anchorMatch := some anchorMatch
      noRollCandidate := some noRollSt.1
      markers := noRollSt.2 }

/-- `annotateSegments` of the intent annotator. -/
def annotateSegments (segments : List Segment)
    (lastResolvedAction : Option LastResolvedAction) : List Segment :=
  segments.map (annotateOne lastResolvedAction)

inductive StatusType
  | condition
  | buff
  | debuff
  deriving DecidableEq, Repr

/-- `StatusModifiers` of `aiService.ts`. -/
structure StatusModifiers where
  attackRolls : Option String := none
  abilityChecks : Option String := none
  savingThrows : Option String := none
  skillChecks : Option String := none
  damage : Option String := none
  movementSpeed : Option String := none
  perceptionSight : Option String := none
  actionAvailability : Option String := none
  hpMax : Option String := none
  deriving DecidableEq, Repr

/-- `StatusRestrictions` of `aiService.ts`. -/
structure StatusRestrictions where
  canAct : Option Bool := none
  canMove : Option Bool := none
  canSpeak : Option Bool := none
  reactionsAllowed : Option Bool := none
  movementSpeedMultiplier : Option Int := none
  cannotApproachSource : Option Bool := none
  cannotTargetCharmer : Option Bool := none
  special : Option String := none
  deriving DecidableEq, Repr

/-- `StatusDot` of `aiService.ts`. -/
structure StatusDot where
  timing : String
  amount : String
  deriving DecidableEq, Repr

/-- A canonical status definition as produced by `buildStatusDefinition`. -/
structure StatusDefBase where
  name : String
  stype : StatusType
  mechanics : String
  modifiers : StatusModifiers
  restrictions : StatusRestrictions
  narrationCues : List String
  dot : Option StatusDot := none
  deriving DecidableEq, Repr

/-- `StatusEffect` of `aiService.ts` (the shape `normalizeEntry` returns). -/
structure StatusEffect where
  id : String
  name : String
  stype : StatusType
  mechanics : String
  trigger : String
  modifiers : StatusModifiers
  restrictions : StatusRestrictions
  narrationCues : List String
  durationType : String
  durationValue : Option Int
  cure : String
  source : Option String
  severity : Option Int
  appliedAt : Option Int
  deriving DecidableEq, Repr

/-- A proposed `duration` sub-object of a status delta entry. -/
structure ProposedDuration where
  dtype : Option String := none
  value : Option Int := none
  deriving DecidableEq, Repr

/-- A raw entry of a proposed `{apply, update}` status delta; every field is
optional because the payload is untrusted JSON. -/
structure ProposedEntry where
  id : Option String := none
  name : Option String := none
  mechanics : Option String := none
  trigger : Option String := none
  cure : Option String := none
  duration : Option ProposedDuration := none
  etype : Option String := none
  severity : Option Int := none
  source : Option String := none
  appliedAt : Option Int := none
  deriving DecidableEq, Repr

/-- A raw entry of a proposed `remove` list: a string, an object, or null. -/
inductive ProposedRemove
  | str (s : String)
  | obj (id : Option String)
  | nullEntry
  deriving DecidableEq, Repr

/-- `StatusUpdatePayload` of `aiService.ts` (the normalizer's output). -/
structure StatusUpdatePayloadOut where
  apply : List StatusEffect
  update : List StatusEffect
  remove : List String
  deriving DecidableEq, Repr

/-- The proposed payload handed to `normalizeStatusUpdate`; a missing or
non-array field of the untrusted JSON is the empty list. -/
structure StatusPayloadIn where
  apply : List (Option ProposedEntry) := []
  update : List (Option ProposedEntry) := []
  remove : List ProposedRemove := []
  deriving DecidableEq, Repr

/-- `StatusStateInput` of `aiService.ts`; only `id`s of the active statuses
are consulted. -/
structure StatusStateInput where
  active_statuses : List StatusEffect
  deriving DecidableEq, Repr

/-- Truthiness of an optional JS string: present and non-empty. -/
def truthyS (o : Option String) : Bool :=
  o.getD "" != ""

/-- The first run of digits of a string, the regex capture `(\d+)`. -/
def firstDigitRun : List Char → Option (List Char)
  | [] => none
  | c :: rest =>
    if c.isDigit then some (c :: rest.takeWhile Char.isDigit)
    else firstDigitRun rest

/-- JS `Number` applied to the first digit-run match of `(\d+)`. -/
def firstNumber (s : String) : Option Nat :=
  (firstDigitRun s.data).map
    (fun ds => ds.foldl (fun n c => n * 10 + (c.toNat - 48)) 0)

/-- `socialOrScenePattern` of `normalizeStatusUpdate`. -/
def socialOrScene (text : String) : Bool :=
  containsAnyPhrase
    ["crowd", "room", "tavern", "atmosphere", "reputation", "tension",
     "patrons", "bystanders", "onlookers", "public", "rumor", "gossip",
     "npc", "bartender", "barkeep", "innkeeper"] text

/-- `mechanicsPattern` of `normalizeStatusUpdate`, alternations expanded. -/
def mechanicsTest (text : String) : Bool :=
  containsAnyPhrase
    ["advantage", "disadvantage", "speed", "cannot",
     "cant", "can" ++ apoS ++ "t", "no reactions", "bonus", "penalty",
     "halved", "incapacitated", "attack roll", "saving throw",
     "ability check", "ac", "damage", "restrained", "stunned", "poisoned",
     "grappled", "prone", "blinded", "deafened", "paralyzed", "unconscious",
     "invisible", "exhaustion", "critical", "auto fail", "auto fails",
     "fails"] text

/-- `triggerPattern` of `normalizeStatusUpdate`. -/
def triggerTest (text : String) : Bool :=
  containsAnyPhrase
    ["save", "spell", "hit", "damage", "failed", "success", "check", "dc",
     "poison", "venom", "curse", "ritual", "artifact", "touch", "round",
     "turn", "start", "end", "after", "when", "on", "critical"] text

/-- `validDuration` of `normalizeStatusUpdate`. -/
def validDurationTypes : List String :=
  ["rounds", "minutes", "scene", "until_removed"]

/-- The row of `canonicalStatusMap` for a raw id, when one exists. -/
def canonicalStatusMap (rawId : String) : Option (String × String × StatusType) :=
  if rawId = "poisoned" then some ("poisoned", "Poisoned", StatusType.condition)
  else if rawId = "blinded" then some ("blinded", "Blinded", StatusType.condition)
  else if rawId = "charmed" then some ("charmed", "Charmed", StatusType.condition)
  else if rawId = "frightened" then some ("frightened", "Frightened", StatusType.condition)
  else if rawId = "paralyzed" then some ("paralyzed", "Paralyzed", StatusType.condition)
  else if rawId = "restrained" then some ("restrained", "Restrained", StatusType.condition)
  else if rawId = "stunned" then some ("stunned", "Stunned", StatusType.condition)
  else if rawId = "unconscious" then some ("unconscious", "Unconscious", StatusType.condition)
  else if rawId = "invisible" then some ("invisible", "Invisible", StatusType.condition)
  else if rawId = "inspired" then some ("inspired", "Inspired", StatusType.buff)
  else if rawId = "blessed" then some ("blessed", "Blessed", StatusType.buff)
  else if rawId = "cursed" then some ("cursed", "Cursed", StatusType.debuff)
  else if rawId = "bleeding" then some ("bleeding", "Bleeding", StatusType.debuff)
  else if rawId = "madness" then some ("madness", "Madness", StatusType.debuff)
  else if rawId = "fear" then some ("fear", "Fear", StatusType.debuff)
  else if rawId = "corruption" then some ("corruption", "Corruption", StatusType.debuff)
  else if rawId = "exhaustion" then some ("exhaustion", "Exhaustion", StatusType.debuff)
  else none

/-- `baseDefinitions` of `buildStatusDefinition`, transcribed entry by
entry from `aiService.ts`. -/
def baseDefinitions (id : String) : Option StatusDefBase :=
  if id = "poisoned" then some
    { name := "Poisoned", stype := StatusType.debuff
      mechanics := "Disadvantage on attack rolls and ability checks."
      modifiers := { attackRolls := some "dis", abilityChecks := some "dis" }
      restrictions := {}
      narrationCues := ["nausea", "shaky hands", "sweat", "slowed reactions"] }
  else if id = "blinded" then some
    { name := "Blinded", stype := StatusType.debuff
      mechanics := "Automatically fails sight-based checks. Attack rolls against you have advantage. Your attack rolls have disadvantage."
      modifiers := { perceptionSight := some "auto-fail"
                     attackRolls := some "dis (self); attackers adv" }
      restrictions := { special := some "Cannot target by sight unless guessing location." }
      narrationCues := ["darkness", "blur", "hands searching", "missteps"] }
  else if id = "charmed" then some
    { name := "Charmed", stype := StatusType.debuff
      mechanics := "Cannot willingly attack the charmer. Charmer has advantage on social checks vs you."
      modifiers := { actionAvailability := some "cannot harm charmer" }
      restrictions := { cannotTargetCharmer := some true }
      narrationCues := ["softened tone", "trusting posture", "rationalizing requests"] }
  else if id = "frightened" then some
    { name := "Frightened", stype := StatusType.debuff
      mechanics := "Disadvantage on attack rolls and ability checks while source is in sight. Cannot willingly move closer."
      modifiers := { attackRolls := some "dis (source in sight)"
                     abilityChecks := some "dis (source in sight)" }
      restrictions := { cannotApproachSource := some true }
      narrationCues := ["tight breath", "tunnel vision", "instinct to flee"] }
  else if id = "paralyzed" then some
    { name := "Paralyzed", stype := StatusType.debuff
      mechanics := "Incapacitated; cannot move or speak. Automatically fails STR/DEX saves. Attackers have advantage; melee hits within 5 ft are critical."
      modifiers := { savingThrows := some "STR/DEX auto-fail"
                     attackRolls := some "attackers adv; melee crit within 5 ft" }
      restrictions := { canAct := some false, canMove := some false
                        canSpeak := some false, reactionsAllowed := some false }
      narrationCues := ["frozen muscles", "wide eyes", "no response"] }
  else if id = "restrained" then some
    { name := "Restrained", stype := StatusType.debuff
      mechanics := "Speed 0. Attack rolls against you have advantage. Your attack rolls have disadvantage. Disadvantage on DEX saves."
      modifiers := { movementSpeed := some "0"
                     attackRolls := some "dis (self); attackers adv"
                     savingThrows := some "DEX dis" }
      restrictions := { canMove := some false, special := some "Can attempt escape." }
      narrationCues := ["bindings bite", "dragged posture", "limited swings"] }
  else if id = "stunned" then some
    { name := "Stunned", stype := StatusType.debuff
      mechanics := "Incapacitated; cannot move. Automatically fails STR/DEX saves. Attackers have advantage."
      modifiers := { savingThrows := some "STR/DEX auto-fail"
                     attackRolls := some "attackers adv" }
      restrictions := { canAct := some false, canMove := some false
                        reactionsAllowed := some false }
      narrationCues := ["ringing ears", "blank stare", "delayed responses"] }
  else if id = "unconscious" then some
    { name := "Unconscious", stype := StatusType.debuff
      mechanics := "Incapacitated and prone. Automatically fails STR/DEX saves. Attackers have advantage; melee hits within 5 ft are critical."
      modifiers := { savingThrows := some "STR/DEX auto-fail"
                     attackRolls := some "attackers adv; melee crit within 5 ft" }
      restrictions := { canAct := some false, canMove := some false
                        canSpeak := some false, reactionsAllowed := some false }
      narrationCues := ["collapse", "slack limbs", "shallow breath"] }
  else if id = "invisible" then some
    { name := "Invisible", stype := StatusType.buff
      mechanics := "Cannot be seen without special senses. Your attack rolls have advantage. Attack rolls against you have disadvantage."
      modifiers := { attackRolls := some "adv (self); attackers dis" }
      restrictions := { special := some "Still detectable by sound or tracks." }
      narrationCues := ["outline vanishes", "footsteps remain", "air shifts"] }
  else if id = "inspired" then some
    { name := "Inspired", stype := StatusType.buff
      mechanics := "Gain advantage on one chosen roll. Consumed on use."
      modifiers := { attackRolls := some "adv (one roll)"
                     abilityChecks := some "adv (one roll)"
                     savingThrows := some "adv (one roll)" }
      restrictions := { special := some "Consumed on use." }
      narrationCues := ["surge of confidence", "clear focus", "steady hands"] }
  else if id = "blessed" then some
    { name := "Blessed", stype := StatusType.buff
      mechanics := "Add 1d4 to attack rolls and saving throws."
      modifiers := { attackRolls := some "+1d4", savingThrows := some "+1d4" }
      restrictions := {}
      narrationCues := ["faint glow", "calm certainty", "guided motion"] }
  else if id = "cursed" then some
    { name := "Cursed", stype := StatusType.debuff
      mechanics := "Disadvantage on specified rolls or saves, defined by the curse."
      modifiers := { abilityChecks := some "dis (specified)"
                     savingThrows := some "dis (specified)" }
      restrictions := { special := some "Curse may include compulsion or aversion." }
      narrationCues := ["cold weight", "bad luck", "uneasy whispers"] }
  else if id = "bleeding" then some
    { name := "Bleeding", stype := StatusType.debuff
      mechanics := "Take damage at start of each turn. Severe bleeding imposes CON check disadvantage."
      modifiers := { abilityChecks := some "CON dis (severe)" }
      restrictions := { special := some "May limit recovery until treated." }
      narrationCues := ["dripping blood", "dizziness", "stained clothes"]
      dot := some { timing := "startOfTurn", amount := "1d4" } }
  else if id = "madness" then some
    { name := "Madness", stype := StatusType.debuff
      mechanics := "Disadvantage on WIS and CHA checks. Under stress, WIS saves may be required."
      modifiers := { abilityChecks := some "WIS/CHA dis"
                     savingThrows := some "WIS dis (under stress)" }
      restrictions := { special := some "May lose action on failed stress save." }
      narrationCues := ["intrusive thoughts", "paranoia", "dissociation"] }
  else if id = "fear" then some
    { name := "Fear", stype := StatusType.debuff
      mechanics := "When confronting the fear trigger, make a WIS save or become Frightened for the scene."
      modifiers := { savingThrows := some "WIS save on trigger" }
      restrictions := { special := some "Avoidance behavior unless save succeeds." }
      narrationCues := ["flashbacks", "freezing", "shaky voice"] }
  else if id = "corruption" then some
    { name := "Corruption", stype := StatusType.debuff
      mechanics := "Progressive debuff to WIS/CHA with hallucination or impulse triggers at higher tiers."
      modifiers := { savingThrows := some "WIS penalty by tier"
                     abilityChecks := some "WIS/CHA dis at tier 2+" }
      restrictions := { special := some "At high tier, failed WIS save can force impulse action." }
      narrationCues := ["dark veins", "whispers", "cravings", "distorted reflections"] }
  else if id = "exhaustion" then some
    { name := "Exhaustion", stype := StatusType.debuff
      mechanics := "Exhaustion level effects apply per tier."
      modifiers := {}
      restrictions := {}
      narrationCues := ["heavy limbs", "shaking", "collapse"] }
  else none

/-- The `exhaustionLevels` table of `buildStatusDefinition`. -/
def exhaustionLevels (level : Int) : Option StatusModifiers :=
  if level = 1 then some { abilityChecks := some "dis" }
  else if level = 2 then some { movementSpeed := some "0.5x" }
  else if level = 3 then some { attackRolls := some "dis", savingThrows := some "dis" }
  else if level = 4 then some { hpMax := some "0.5x" }
  else if level = 5 then some { movementSpeed := some "0", actionAvailability := some "cannot move" }
  else if level = 6 then some { actionAvailability := some "dead" }
  else none

/-- `buildStatusDefinition` of `normalizeStatusUpdate`. -/
def buildStatusDefinition (normalizedId : String) (severity : Option Int) :
    Option StatusDefBase :=
  if normalizedId = "exhaustion" then
    let level := severity.getD 1
    (baseDefinitions "exhaustion").map (fun base =>
      { base with
          name := "Exhaustion (Level " ++ toString level ++ ")"
          mechanics := "Level 1: ability checks disadvantage. Level 2: speed halved. Level 3: attack rolls and saves disadvantage. Level 4: HP max halved. Level 5: speed 0. Level 6: death."
          modifiers := (exhaustionLevels level).getD base.modifiers
          restrictions :=
            if level ≥ 6 then
              { canAct := some false, canMove := some false
                canSpeak := some false, reactionsAllowed := some false }
            else if level ≥ 5 then { canMove := some false }
            else {} })
  else if normalizedId = "corruption" then
    let tier := severity.getD 1
    (baseDefinitions "corruption").map (fun base =>
      { base with
          name := "Corruption (Tier " ++ toString tier ++ ")"
          modifiers :=
            if tier = 1 then { savingThrows := some ("WIS -1 (or dis once per scene)") }
            else if tier = 2 then
              { abilityChecks := some "WIS/CHA dis", savingThrows := some "WIS dis on trigger" }
            else
              { abilityChecks := some "WIS/CHA dis", savingThrows := some "WIS dis"
                damage := some "impulse risk" }
          restrictions :=
            if tier ≥ 3 then
              { special := some "On failed WIS save, DM may force one harmful impulse." }
            else base.restrictions })
  else
    baseDefinitions normalizedId

/-- `normalizeEntry` of `normalizeStatusUpdate`, translated guard by guard. -/
def normalizeEntry (entry? : Option ProposedEntry) : Option StatusEffect :=
  match entry? with
  | none => none
  | some entry =>
    if !(truthyS entry.id && truthyS entry.name && truthyS entry.mechanics) then none
    else
      let rawId := strLower (strTrim (entry.id.getD ""))
      let rawName := strTrim (entry.name.getD "")
      let mechanics := strTrim (entry.mechanics.getD "")
      let trigger := strTrim (entry.trigger.getD "")
      let cure := strTrim (entry.cure.getD "")
      if rawId = "" || rawName = "" || mechanics = "" || trigger = "" || cure = "" then
        none
      else if socialOrScene rawName || socialOrScene mechanics ||
          socialOrScene trigger || socialOrScene cure then none
      else if !mechanicsTest mechanics then none
      else if !triggerTest trigger then none
      else
        let durationType := (entry.duration.bind (·.dtype)).getD ""
        if !(validDurationTypes.contains durationType) then none
        else
          let durationValue := entry.duration.bind (·.value)
          let branch : Option (String × String × Option Int × StatusType) :=
            if matchLead "exhaustion".data rawId.data ||
                containsSub "exhaustion" (strLower rawName) then
              let level : Option Int :=
                match firstNumber rawId with
                | some n => some (n : Int)
                | none =>
                  match firstNumber rawName with
                  | some n => some (n : Int)
                  | none => entry.severity
              match level with
              | none => none
              | some l =>
                if l < 1 || l > 6 then none
                else some ("exhaustion", "Exhaustion (Level " ++ toString l ++ ")",
                  some l, StatusType.debuff)
            else if matchLead "corruption".data rawId.data ||
                containsSub "corruption" (strLower rawName) then
              let tier : Option Int :=
                match firstNumber rawId with
                | some n => some (n : Int)
                | none =>
                  match firstNumber rawName with
                  | some n => some (n : Int)
                  | none => entry.severity
              match tier with
              | none => none
              | some t =>
                if t < 1 || t > 3 then none
                else some ("corruption", "Corruption (Tier " ++ toString t ++ ")",
                  some t, StatusType.debuff)
            else
              match canonicalStatusMap rawId with
              | none => none
              | some (cid, cname, ctype) => some (cid, cname, entry.severity, ctype)
          match branch with
          | none => none
          | some (normalizedId, normalizedName, normalizedSeverity, _) =>
            match buildStatusDefinition normalizedId normalizedSeverity with
            | none => none
            | some definition => some
              { id := normalizedId
                name := if definition.name = "" then normalizedName else definition.name
                stype := definition.stype
                mechanics := definition.mechanics
                trigger := trigger
                modifiers := definition.modifiers
                restrictions := definition.restrictions
                narrationCues := definition.narrationCues
                durationType := durationType
                durationValue := durationValue
                cure := cure
                source := if (entry.source.getD "") = "" then none else entry.source
                severity := normalizedSeverity
                appliedAt := entry.appliedAt }

/-- `normalizeRemove` of `normalizeStatusUpdate`. -/
def normalizeRemove : ProposedRemove → Option String
  | ProposedRemove.nullEntry => none
  | ProposedRemove.str s => if s = "" then none else some s
  | ProposedRemove.obj id =>
    match id with
    | some i => if i = "" then none else some i
    | none => none

/-- `normalizeStatusUpdate` of `aiService.ts`: prune, cap `apply` to one,
then normalize every surviving entry. -/
def normalizeStatusUpdate (payload : StatusPayloadIn)
    (statusState : StatusStateInput) : StatusUpdatePayloadOut :=
  let activeIds := statusState.active_statuses.map (·.id)
  let prunedApply := payload.apply.filter (fun e? =>
    match e? with
    | some e => truthyS e.id && truthyS e.name
    | none => false)
  let prunedApply := prunedApply.filter (fun e? =>
    match e? with
    | some e => !(activeIds.contains (e.id.getD ""))
    | none => false)
  let prunedApply := if prunedApply.length > 1 then prunedApply.take 1 else prunedApply
  { apply := prunedApply.filterMap normalizeEntry
    update := payload.update.filterMap normalizeEntry
    remove := payload.remove.filterMap normalizeRemove }

/-- `PendingCheck` of `diceRoutes.ts` (the fields the `/dm-response` handler
reads; the advisory `intent` echo attached on storage is not modelled). -/
structure PendingCheck where
  id : String
  ctype : String
  actor : String
  target : Option String
  targetLabel : Option String
  stat : Option String
  difficulty : Option Int
  context : String
  reason : String
  actionLabel : Option String
  domain : Option String
  skill : Option String
  intentType : Option String
  deriving DecidableEq, Repr

/-- The roll result carried by a `/dm-response` request. -/
structure RollResult where
  total : Option Int
  result : Option Int
  d20 : Option Int
  bonus : Option Int
  dc : Option Int
  success : Bool
  label : Option String
  deriving DecidableEq, Repr

/-- One value of the `gameStateByCampaign` map. -/
structure GameStateEntry where
  lastResolvedAction : Option LastResolvedAction
  turnIndex : Nat
  deriving DecidableEq, Repr

/-- The mutable per-campaign server state of `diceRoutes.ts`: the
`pendingChecks`, `battles` and `gameStateByCampaign` maps. -/
structure ServerState where
  pendingChecks : List (String × PendingCheck)
  battles : List (String × CombatState)
  gameStates : List (String × GameStateEntry)
  deriving DecidableEq, Repr

/-- The request body fields of `/dm-response` that drive state mutation. -/
structure DmRequest where
  campaignId : Option String
  playerAction : String
  rollResult : Option RollResult
  pendingCheckId : Option String
  playerSnapshot : Option PlayerSnapshot
  characterName : Option String
  deriving DecidableEq, Repr

/-- The decision produced in the handler before check construction, whether
by the generative intent router or by the deterministic fallback. -/
structure DecisionSummary where
  intentType : String
  domain : String
  shouldRoll : Bool
  stat : Option String
  skill : Option String
  dc : Option Int
  actionLabel : String
  deriving DecidableEq, Repr

/-- The classification outcome of the fall-through path, abstracting the
segment annotation, the generative intent router, `classifyIntent` and
`buildDecisionCheck`. In the source these are functions of the player text,
scene participants, selected target, game context and the stored
`lastResolvedAction` — never of the request's roll result — so the model
passes them as a single oracle keyed by the `lastResolvedAction` in force. -/
structure ClassifyOutcome where
  decision : DecisionSummary
  builtCheck : Option PendingCheck
  deriving DecidableEq, Repr

/-- The `/dm-response` responses distinguished by the handler's returns. -/
inductive DmResponse
  | rollRequired (check : PendingCheck)
  | combatResolved (battle : CombatState) (events : List CombatEvent)
  | narrated
  | failure (msg : String)
  deriving DecidableEq, Repr

/-- `updateLastResolvedAction` of `diceRoutes.ts`: stores a fresh entry
object, which resets the (spread-less) `turnIndex` field. -/
def updateLastResolvedAction (campaignKey : String) (next : LastResolvedAction)
    (gameStates : List (String × GameStateEntry)) :
    List (String × GameStateEntry) :=
  mapSet campaignKey { lastResolvedAction := some next, turnIndex := 0 } gameStates

/-- The matched-pending-check branch of `/dm-response` (lines 1296-1446):
delete the stored check, resolve an attack through the combat engine
(creating the battle if absent) or hand off to narration, and update the
last resolved action when the check carries a label. -/
def resolveRollBranch (now : Int) (rng : Nat → Nat) (campaignKey : String)
    (req : DmRequest) (pending : PendingCheck) (rollResult : RollResult)
    (s : ServerState) : ServerState × DmResponse :=
  let s := { s with pendingChecks := mapDelete campaignKey s.pendingChecks }
  if pending.ctype = "attack" then
    let battlesAndState :=
      match mapGet campaignKey s.battles with
      | some b => (s.battles, b)
      | none =>
        let baseHp := (req.playerSnapshot.bind (·.hp)).getD 20
        let baseMp := (req.playerSnapshot.bind (·.mp)).getD 0
        let playerEntity : CombatEntity :=
          { id := "player", type := EntityType.player
            name := req.characterName.getD "Player"
            hp := baseHp, hp_max := baseHp
            mp := some baseMp, mp_max := some baseMp, statuses := [] }
        let enemyEntity : CombatEntity :=
          { id := "enemy-0", type := EntityType.enemy
            name := pending.targetLabel.getD "Enemy"
            hp := 12, hp_max := 12, mp := none, mp_max := none, statuses := [] }
        startBattle s.battles campaignKey playerEntity [enemyEntity]
    let s := { s with battles := battlesAndState.1 }
    let battleState := battlesAndState.2
    let targetId :=
      match pending.target with
      | some t =>
        if battleState.entities.any (fun e => e.id == t) then some t
        else (battleState.entities.find?
          (fun e => e.type == EntityType.enemy && e.hp > 0)).map (·.id)
      | none =>
        (battleState.entities.find?
          (fun e => e.type == EntityType.enemy && e.hp > 0)).map (·.id)
    let rollTotal := rollResult.total.getD (rollResult.result.getD 0)
    let attackRoll : Option AttackRoll :=
      match rollResult.d20 with
      | some d =>
        some { d20 := some d
               bonus := some (rollResult.bonus.getD (rollTotal - d))
               total := some rollTotal }
      | none => none
    match resolveAction rng s.battles campaignKey
        { action := ActionKind.attack, actor := "player", target := targetId,
          free_text := none }
        req.playerSnapshot attackRoll 0 with
    | Except.error msg => (s, DmResponse.failure msg)
    | Except.ok resolved =>
      let s := { s with battles := resolved.1 }
      let s :=
        if truthyS pending.actionLabel || pending.context ≠ "" then
          let label :=
            if truthyS pending.actionLabel then pending.actionLabel.getD ""
            else pending.context
          let next : LastResolvedAction :=
            { summary := label, domain := pending.domain.getD "violence"
              stat := pending.stat, skill := pending.skill
              timestamp := now, keywords := extractKeywords label }
          { s with gameStates := updateLastResolvedAction campaignKey next s.gameStates }
        else s
      (s, DmResponse.combatResolved resolved.2.1 resolved.2.2.1)
  else
    let s :=
      if truthyS pending.actionLabel || pending.context ≠ "" then
        let label :=
          if truthyS pending.actionLabel then pending.actionLabel.getD ""
          else pending.context
        let next : LastResolvedAction :=
          { summary := label, domain := pending.domain.getD "other"
            stat := pending.stat, skill := pending.skill
            timestamp := now, keywords := extractKeywords label }
        { s with gameStates := updateLastResolvedAction campaignKey next s.gameStates }
      else s
    (s, DmResponse.narrated)

/-- The fall-through classification path of `/dm-response` (lines
1449-1622): classify, build an optional pending check, create a combat
state for an attack check when none exists, store the check, or record the
last resolved action for a no-roll decision. -/
def classifyBranch (classify : Option LastResolvedAction → ClassifyOutcome)
    (now : Int) (lra : Option LastResolvedAction) (campaignKey : String)
    (characterName : Option String) (s : ServerState) : ServerState × DmResponse :=
  let co := classify lra
  let decision := co.decision
  let pendingCheck := if decision.shouldRoll then co.builtCheck else none
  let activeBattle := mapGet campaignKey s.battles
  let s :=
    match pendingCheck with
    | some pc =>
      if pc.ctype = "attack" && activeBattle.isNone then
        let playerEntity : CombatEntity :=
          { id := "player", type := EntityType.player
            name := characterName.getD "Player"
            hp := 20, hp_max := 20, mp := some 0, mp_max := some 0, statuses := [] }
        let enemyEntity : CombatEntity :=
          { id := "enemy-0", type := EntityType.enemy
            name := pc.targetLabel.getD "Enemy"
            hp := 12, hp_max := 12, mp := none, mp_max := none, statuses := [] }
        { s with battles := (startBattle s.battles campaignKey playerEntity [enemyEntity]).1 }
      else s
    | none => s
  match pendingCheck with
  | some pc =>
    ({ s with pendingChecks := mapSet campaignKey pc s.pendingChecks },
      DmResponse.rollRequired pc)
  | none =>
    if decision.shouldRoll = false && decision.intentType ≠ "PAST_REF" &&
        decision.intentType ≠ "SPEECH" && strTrim decision.actionLabel ≠ "" then
      let actionLabel := strTrim decision.actionLabel
      let next : LastResolvedAction :=
        { summary := actionLabel, domain := decision.domain
          stat := decision.stat, skill := decision.skill
          timestamp := now, keywords := extractKeywords actionLabel }
      ({ s with gameStates := updateLastResolvedAction campaignKey next s.gameStates },
        DmResponse.narrated)
    else (s, DmResponse.narrated)

/-- One `/dm-response` request (`diceRoutes.ts` lines 1249-1632): bump the
per-campaign turn index, then either resolve a matching pending check or
fall through to classification. -/
def dmStep (classify : Option LastResolvedAction → ClassifyOutcome) (now : Int)
    (rng : Nat → Nat) (req : DmRequest) (s : ServerState) :
    ServerState × DmResponse :=
  let campaignKey := req.campaignId.getD "default"
  let gameState := (mapGet campaignKey s.gameStates).getD
    { lastResolvedAction := none, turnIndex := 0 }
  let currentTurn := gameState.turnIndex + 1
  let bumped := { gameState with turnIndex := currentTurn }
  let s := { s with gameStates := mapSet campaignKey bumped s.gameStates }
  match req.rollResult, req.pendingCheckId with
  | some rollResult, some checkId =>
    match mapGet campaignKey s.pendingChecks with
    | some pending =>
      if pending.id = checkId then
        resolveRollBranch now rng campaignKey req pending rollResult s
      else
        classifyBranch classify now gameState.lastResolvedAction campaignKey
          req.characterName s
    | none =>
      classifyBranch classify now gameState.lastResolvedAction campaignKey
        req.characterName s
  | _, _ =>
    classifyBranch classify now gameState.lastResolvedAction campaignKey
      req.characterName s

/-- The server states reachable from boot: the three maps start empty and
evolve through `/dm-response` requests; the battle routes touch only the
`battles` map, covered by the `battleOnly` step. -/
inductive ReachableState : ServerState → Prop
  | init : ReachableState ⟨[], [], []⟩
  | dm (classify : Option LastResolvedAction → ClassifyOutcome) (now : Int)
      (rng : Nat → Nat) (req : DmRequest) (s : ServerState) :
      ReachableState s → ReachableState (dmStep classify now rng req s).1
  | battleOnly (b : List (String × CombatState)) (s : ServerState) :
      ReachableState s → ReachableState { s with battles := b }

/-- The number of entries a map holds under one key. -/
def countKey (k : String) (m : List (String × α)) : Nat :=
  (m.filter (fun p => p.1 == k)).length

/-- The `hit` flag of the leading `ATTACK_RESOLVED` event, when present. -/
def firstAttackHit : List CombatEvent → Option Bool
  | CombatEvent.attackResolved _ _ hit _ _ _ _ _ _ :: _ => some hit
  | _ => none

/-- The `amount` of the first `DAMAGE_APPLIED` event, when present. -/
def firstDamageAmount : List CombatEvent → Option Nat
  | [] => none
  | CombatEvent.damageApplied _ amount _ _ :: _ => some amount
  | _ :: evs => firstDamageAmount evs

/-- C1: an attack resolved by `resolveAttack` hits exactly when the d20
shows 20, misses exactly when it shows 1, and otherwise hits exactly when
the total reaches the fixed AC of 10. -/
theorem resolveAttack_hit_rule (rng : Nat → Nat) (state : CombatState)
    (intent : ActionIntent) (attackRoll : Option AttackRoll) (k : Nat)
    (targetId : String) (attacker target : CombatEntity)
    (ht : intent.target = some targetId)
    (ha : state.entities.find? (fun e => e.id == intent.actor) = some attacker)
    (hb : state.entities.find? (fun e => e.id == targetId) = some target) :
    firstAttackHit (resolveAttack rng state intent attackRoll k).2.1 =
      some (let d20 := (pickD20 rng k attackRoll).1
            let total := pickTotal d20 (pickBonus d20 attackRoll) attackRoll
            if d20 = 20 then true else if d20 = 1 then false else decide (total ≥ 10)) := by
  simp only [resolveAttack, ht, ha, hb]
  set d20 := (pickD20 rng k attackRoll).1 with hd
  set total := pickTotal d20 (pickBonus d20 attackRoll) attackRoll with htot
  by_cases h20 : d20 = 20
  · simp [firstAttackHit, h20]
  · by_cases h1 : d20 = 1
    · simp [firstAttackHit, h20, h1]
    · by_cases hge : total ≥ (10 : Int)
      · simp [firstAttackHit, h20, h1, hge]
      · simp [firstAttackHit, h20, h1, hge]

/-- C2: a hit by `resolveAttack` applies 1d8+2 damage for a player
attacker and 1d6+1 for an enemy attacker, doubled on a natural 20, and
halves the result (floored, minimum 1) when the target is a player with an
active `defending` status. -/
theorem resolveAttack_damage_rule (rng : Nat → Nat) (state : CombatState)
    (intent : ActionIntent) (attackRoll : Option AttackRoll) (k : Nat)
    (targetId : String) (attacker target : CombatEntity)
    (ht : intent.target = some targetId)
    (ha : state.entities.find? (fun e => e.id == intent.actor) = some attacker)
    (hb : state.entities.find? (fun e => e.id == targetId) = some target)
    (hhit : (pickD20 rng k attackRoll).1 = 20 ∨
      ((pickD20 rng k attackRoll).1 ≠ 1 ∧
        pickTotal (pickD20 rng k attackRoll).1
          (pickBonus (pickD20 rng k attackRoll).1 attackRoll) attackRoll ≥ 10)) :
    firstDamageAmount (resolveAttack rng state intent attackRoll k).2.1 =
      some (let d20 := (pickD20 rng k attackRoll).1
            let base : Nat :=
              if attacker.type = EntityType.player then
                (rollDie rng (pickD20 rng k attackRoll).2 8).1 + 2
              else (rollDie rng (pickD20 rng k attackRoll).2 6).1 + 1
            let doubled := if d20 = 20 then base * 2 else base
            if target.type = EntityType.player ∧
                (∃ st ∈ target.statuses, st.key = "defending") then
              max 1 (doubled / 2)
            else doubled) := by
  simp only [resolveAttack, ht, ha, hb]
  set d20 := (pickD20 rng k attackRoll).1 with hd
  set total := pickTotal d20 (pickBonus d20 attackRoll) attackRoll with htot
  have hhit' : (if d20 == 20 then true
      else if d20 == 1 then false else decide (total ≥ 10)) = true := by
    rcases hhit with h20 | ⟨h1, hge⟩
    · simp [h20]
    · by_cases h20 : d20 = 20 <;> simp [h20, h1, hge]
  rw [hhit']
  have hdef : (target.statuses.find? (fun s => s.key == "defending")).isSome =
      decide (∃ st ∈ target.statuses, st.key = "defending") := by
    by_cases hex : ∃ st ∈ target.statuses, st.key = "defending"
    · have h1 : (target.statuses.find? (fun s => s.key == "defending")).isSome := by
        rw [List.find?_isSome]
        obtain ⟨st, hm, hk⟩ := hex
        exact ⟨st, hm, by simp [hk]⟩
      simp [h1, hex]
    · have h1 : target.statuses.find? (fun s => s.key == "defending") = none := by
        rw [List.find?_eq_none]
        intro x hx hk
        exact hex ⟨x, hx, by simpa using hk⟩
      simp [h1, hex]
  by_cases hp : attacker.type = EntityType.player
  · by_cases h20 : d20 = 20 <;>
      by_cases htp : target.type = EntityType.player ∧
        (∃ st ∈ target.statuses, st.key = "defending") <;>
      simp_all [firstDamageAmount, hdef, rollBase, applyDefending, rollDie]
  · by_cases h20 : d20 = 20 <;>
      by_cases htp : target.type = EntityType.player ∧
        (∃ st ∈ target.statuses, st.key = "defending") <;>
      simp_all [firstDamageAmount, hdef, rollBase, applyDefending, rollDie]

/-- A player entity used by the concrete witnesses. -/
def witPlayer : CombatEntity :=
  { id := "player", type := EntityType.player, name := "Hero", hp := 20, hp_max := 20
    mp := none, mp_max := none, statuses := [] }

/-- An enemy entity used by the concrete witnesses. -/
def witEnemy : CombatEntity :=
  { id := "enemy-0", type := EntityType.enemy, name := "Bandit", hp := 12, hp_max := 12
    mp := none, mp_max := none, statuses := [] }

/-- A two-entity battle used by the concrete witnesses. -/
def witState : CombatState :=
  { id := "camp-battle", phase := CombatPhase.player_turn, round := 1, turn_index := 0
    initiative_order := ["player", "enemy-0"], entities := [witPlayer, witEnemy]
    log := [] }

/-- The player attacking the enemy, used by the concrete witnesses. -/
def witAttackIntent : ActionIntent :=
  { action := ActionKind.attack, actor := "player", target := some "enemy-0"
    free_text := none }

/-- A non-critical roll override of 12 used by the concrete witnesses. -/
def witRoll12 : AttackRoll :=
  { d20 := some 12, bonus := some 0, total := some 12 }

/-- Witness for the hit rule: a supplied d20 of 12 with total 12 against
AC 10 hits. -/
theorem resolveAttack_hit_rule_witness :
    witAttackIntent.target = some "enemy-0" ∧
    firstAttackHit (resolveAttack (fun _ => 0) witState witAttackIntent
      (some witRoll12) 0).2.1 = some true :=
  ⟨rfl, by
    have h := resolveAttack_hit_rule (fun _ => 0) witState witAttackIntent
      (some witRoll12) 0 "enemy-0" witPlayer witEnemy rfl rfl rfl
    rw [h]; decide⟩

/-- The player with an active `defending` status, for the witnesses. -/
def witDefendingPlayer : CombatEntity :=
  { witPlayer with statuses := [⟨"defending", 1⟩] }

/-- The defending-player battle of the spec scenario. -/
def witDefState : CombatState :=
  { witState with entities := [witDefendingPlayer, witEnemy] }

/-- The enemy attacking the player, used by the concrete witnesses. -/
def witEnemyIntent : ActionIntent :=
  { action := ActionKind.attack, actor := "enemy-0", target := some "player"
    free_text := none }

/-- A non-critical total-15 roll override of the spec scenario. -/
def witRoll15 : AttackRoll :=
  { d20 := some 10, bonus := some 5, total := some 15 }

/-- Witness for the damage rule, replaying the spec scenario: an enemy
non-critical hit with base damage 5 against a defending player applies
exactly `max(1, floor(5/2)) = 2` damage. -/
theorem resolveAttack_damage_rule_witness :
    witEnemyIntent.target = some "player" ∧
    firstDamageAmount (resolveAttack (fun _ => 3) witDefState witEnemyIntent
      (some witRoll15) 0).2.1 = some 2 :=
  ⟨rfl, by
    have h := resolveAttack_damage_rule (fun _ => 3) witDefState witEnemyIntent
      (some witRoll15) 0 "player" witEnemy witDefendingPlayer rfl rfl rfl
      (Or.inr ⟨by decide, by decide⟩)
    rw [h]; decide⟩

/-- The player at 1 HP, felled by any enemy hit. -/
def witLowPlayer : CombatEntity := { witPlayer with hp := 1 }

/-- The battle in which the next enemy hit drops the player to 0 HP. -/
def witLowState : CombatState := { witState with entities := [witLowPlayer, witEnemy] }

/-- C9 counterexample: an enemy hit that drops the player entity to 0 HP
emits `ENEMY_DEFEATED` naming the player, although the target is not of
type enemy. -/
theorem enemyDefeated_player_counterexample :
    (witLowState.entities.find? (fun e => e.id == "player")).map (·.type) =
      some EntityType.player ∧
    CombatEvent.enemyDefeated "player" ∈
      (resolveAttack (fun _ => 9) witLowState witEnemyIntent none 0).2.1 := by
  decide

/-- C9 amended: `resolveAttack` emits `ENEMY_DEFEATED` for a damaged target
exactly when the damage left it at 0 HP, regardless of the target's type. -/
theorem resolveAttack_enemyDefeated_iff (rng : Nat → Nat) (state : CombatState)
    (intent : ActionIntent) (attackRoll : Option AttackRoll) (k : Nat)
    (tgt : String) (amount : Nat) (src : String) (remaining : Int)
    (hmem : CombatEvent.damageApplied tgt amount src remaining ∈
      (resolveAttack rng state intent attackRoll k).2.1) :
    (CombatEvent.enemyDefeated tgt ∈
      (resolveAttack rng state intent attackRoll k).2.1 ↔ remaining = 0) := by
  rcases hts : intent.target with _ | tid
  · simp [resolveAttack, hts] at hmem
  · rcases hfa : state.entities.find? (fun e => e.id == intent.actor) with _ | attacker
    · simp [resolveAttack, hts, hfa] at hmem
    · rcases hfb : state.entities.find? (fun e => e.id == tid) with _ | target
      · simp [resolveAttack, hts, hfa, hfb] at hmem
      · simp only [resolveAttack, hts, hfa, hfb] at hmem ⊢
        set d20 := (pickD20 rng k attackRoll).1 with hd
        set total := pickTotal d20 (pickBonus d20 attackRoll) attackRoll with ht2
        by_cases h20 : d20 = 20
        · simp [h20] at hmem ⊢
          obtain ⟨e1, _, _, e4⟩ := hmem
          subst e1; subst e4
          simp
        · by_cases h1 : d20 = 1
          · simp [h20, h1] at hmem ⊢
          · by_cases hge : total ≥ 10
            · simp [h20, h1, hge] at hmem ⊢
              obtain ⟨e1, _, _, e4⟩ := hmem
              subst e1; subst e4
              simp
            · simp [h20, h1, hge] at hmem ⊢

/-- Witness for the amended defeat rule: the concrete enemy hit of the
counterexample leaves the player at 0 HP, so the event is present. -/
theorem resolveAttack_enemyDefeated_iff_witness :
    CombatEvent.damageApplied "player" 5 "enemy-0" 0 ∈
      (resolveAttack (fun _ => 9) witLowState witEnemyIntent none 0).2.1 ∧
    CombatEvent.enemyDefeated "player" ∈
      (resolveAttack (fun _ => 9) witLowState witEnemyIntent none 0).2.1 :=
  ⟨by decide,
    (resolveAttack_enemyDefeated_iff (fun _ => 9) witLowState witEnemyIntent none 0
      "player" 5 "enemy-0" 0 (by decide)).mpr rfl⟩

/-- The hint the annotator's if-cascade actually implements: PAST_REF,
then REQUEST, then SPEECH, then ACTION_NOW, then UNKNOWN. -/
def priorityHint (text : String) : SegmentHint :=
  if detectPastRef text then SegmentHint.PAST_REF
  else if detectRequest text then SegmentHint.REQUEST
  else if detectSpeech text then SegmentHint.SPEECH
  else if detectActionNow text then SegmentHint.ACTION_NOW
  else SegmentHint.UNKNOWN

/-- A bare segment carrying the text that matches both a SPEECH marker and
a REQUEST marker while matching no PAST_REF marker. -/
def witSeg : Segment :=
  { id := "seg-1", text := "I ask for ale", hint := none, confidence := none
    anchorMatch := none, noRollCandidate := none, markers := [] }

/-- C7 counterexample: the text matches a SPEECH marker and a REQUEST
marker and no PAST_REF marker, yet `annotateSegments` tags it REQUEST, not
SPEECH: the REQUEST check overwrites the SPEECH hint. -/
theorem annotate_speech_request_counterexample :
    detectSpeech witSeg.text = true ∧ detectRequest witSeg.text = true ∧
    detectPastRef witSeg.text = false ∧
    (annotateSegments [witSeg] none).map (·.hint) = [some SegmentHint.REQUEST] := by
  exact ⟨rfl, rfl, rfl, rfl⟩

/-- C7 amended: `annotateSegments` assigns hints by the fixed priority
PAST_REF, then REQUEST, then SPEECH, then ACTION_NOW, then UNKNOWN. -/
theorem annotateSegments_priority (segments : List Segment)
    (lastResolvedAction : Option LastResolvedAction) :
    (annotateSegments segments lastResolvedAction).map (·.hint) =
      segments.map (fun seg => some (priorityHint seg.text)) := by
  unfold annotateSegments
  rw [List.map_map]
  apply List.map_congr_left
  intro seg _
  show (annotateOne lastResolvedAction seg).hint = some (priorityHint seg.text)
  unfold annotateOne priorityHint
  by_cases hpr : detectPastRef seg.text
  · by_cases ham : hasAnchorMatch (stripQuotedSegments seg.text) lastResolvedAction <;>
      simp [hpr, ham]
  · by_cases hrq : detectRequest seg.text
    · by_cases hsp : detectSpeech seg.text <;> simp [hpr, hrq, hsp]
    · by_cases hsp : detectSpeech seg.text
      · simp [hpr, hrq, hsp]
      · by_cases hac : detectActionNow seg.text <;> simp [hpr, hrq, hsp, hac]

/-- A false end check leaves the state unchanged and emits nothing. -/
theorem checkCombatEnd_of_false (s : CombatState)
    (h : (checkCombatEnd s).2.2 = false) : checkCombatEnd s = (s, [], false) := by
  unfold checkCombatEnd at h ⊢
  rcases hp : s.entities.find? (fun e => e.type == EntityType.player) with _ | player
  · rw [hp] at h; simp at h
  · rw [hp] at h ⊢
    by_cases h1 : player.hp ≤ 0
    · simp [h1] at h
    · by_cases h2 : s.entities.any (fun e => e.type == EntityType.enemy && e.hp > 0)
      · simp [h1, h2]
      · simp [h1, h2] at h

/-- The status-expiry fold, expressed as a map of the surviving entities
and a flat map of the removal events. -/
theorem clearAll_foldl (xs : List CombatEntity) (a1 : List CombatEntity)
    (a2 : List CombatEvent) :
    xs.foldl (fun (acc : List CombatEntity × List CombatEvent) e =>
      let r := clearExpiredStatuses e
      (acc.1 ++ [r.1], acc.2 ++ r.2)) (a1, a2) =
    (a1 ++ xs.map (fun e => (clearExpiredStatuses e).1),
      a2 ++ xs.flatMap (fun e => (clearExpiredStatuses e).2)) := by
  induction xs generalizing a1 a2 with
  | nil => simp
  | cons x xs ih =>
    simp only [List.foldl_cons, List.map_cons, List.flatMap_cons]
    rw [ih]
    simp [List.append_assoc]

/-- `clearAllStatuses` in closed form. -/
theorem clearAllStatuses_eq (s : CombatState) :
    clearAllStatuses s =
      ({ s with entities := s.entities.map (fun e => (clearExpiredStatuses e).1) },
        s.entities.flatMap (fun e => (clearExpiredStatuses e).2)) := by
  unfold clearAllStatuses
  rw [clearAll_foldl]
  simp

/-- When the end check after the player's action reports a continuing
battle, `resolveAction` performs exactly: enemy turn, round increment,
status expiry, final end check, log append. -/
theorem resolveActionState_continue (rng : Nat → Nat) (state : CombatState)
    (intent : ActionIntent) (snap : Option PlayerSnapshot)
    (attackRoll : Option AttackRoll) (k : Nat)
    (h : (checkCombatEnd
      (dispatchPlayerAction rng (applySnapshot state snap) intent attackRoll k).1).2.2
        = false) :
    resolveActionState rng state intent snap attackRoll k =
      (let s0 := applySnapshot state snap
       let stepA := dispatchPlayerAction rng s0 intent attackRoll k
       let s1 : CombatState := { stepA.1 with phase := CombatPhase.enemy_turn }
       let stepE := resolveEnemyTurn rng s1 stepA.2.2
       let s2 : CombatState :=
         { stepE.1 with round := stepE.1.round + 1, phase := CombatPhase.player_turn }
       let s3 : CombatState :=
         { s2 with entities := s2.entities.map (fun e => (clearExpiredStatuses e).1) }
       let decayEvents := s2.entities.flatMap (fun e => (clearExpiredStatuses e).2)
       let endB := checkCombatEnd s3
       let events :=
         [CombatEvent.turnStart intent.actor] ++ stepA.2.1 ++ stepE.2.1 ++
           decayEvents ++ endB.2.1
       (appendLog endB.1 events, events, stepE.2.2)) := by
  have hA := checkCombatEnd_of_false _ h
  simp only [resolveActionState, hA, clearAllStatuses_eq]
  simp

/-- C3: in a battle that continues after the player's action, one
`resolveAction` performs, in this exact order: the player's action, every
living enemy's attack on the player in roster order (`resolveEnemyTurn`),
the round increment, the decrement-and-expiry pass over every entity's
statuses (emitting `STATUS_REMOVED`), and the final end-of-combat check. -/
theorem resolveAction_turn_cycle (rng : Nat → Nat) (state : CombatState)
    (intent : ActionIntent) (snap : Option PlayerSnapshot)
    (attackRoll : Option AttackRoll) (k : Nat)
    (h : (checkCombatEnd
      (dispatchPlayerAction rng (applySnapshot state snap) intent attackRoll k).1).2.2
        = false) :
    resolveActionState rng state intent snap attackRoll k =
      (let s0 := applySnapshot state snap
       let stepA := dispatchPlayerAction rng s0 intent attackRoll k
       let s1 : CombatState := { stepA.1 with phase := CombatPhase.enemy_turn }
       let stepE := resolveEnemyTurn rng s1 stepA.2.2
       let s2 : CombatState :=
         { stepE.1 with round := stepE.1.round + 1, phase := CombatPhase.player_turn }
       let s3 : CombatState :=
         { s2 with entities := s2.entities.map (fun e => (clearExpiredStatuses e).1) }
       let decayEvents := s2.entities.flatMap (fun e => (clearExpiredStatuses e).2)
       let endB := checkCombatEnd s3
       let events :=
         [CombatEvent.turnStart intent.actor] ++ stepA.2.1 ++ stepE.2.1 ++
           decayEvents ++ endB.2.1
       (appendLog endB.1 events, events, stepE.2.2)) :=
  resolveActionState_continue rng state intent snap attackRoll k h

/-- A missed-attack roll override of 2 used by the cycle witness. -/
def witRoll2 : AttackRoll := { d20 := some 2, bonus := some 0, total := some 2 }

/-- Witness for the turn cycle: after a missed player attack the battle
continues and the round counter has incremented to 2. -/
theorem resolveAction_turn_cycle_witness :
    ((checkCombatEnd (dispatchPlayerAction (fun _ => 9) (applySnapshot witState none)
      witAttackIntent (some witRoll2) 0).1).2.2 = false) ∧
    (resolveActionState (fun _ => 9) witState witAttackIntent none
      (some witRoll2) 0).1.round = 2 :=
  ⟨by decide, by
    have h := resolveAction_turn_cycle (fun _ => 9) witState witAttackIntent none
      (some witRoll2) 0 (by decide)
    rw [h]; decide⟩

/-- An attack whose target is missing or unknown (or whose actor is
unknown) returns before rolling anything: no state change, no events, no
dice consumed. -/
theorem resolveAttack_invalid_target_noop (rng : Nat → Nat) (s : CombatState)
    (intent : ActionIntent) (attackRoll : Option AttackRoll) (k : Nat)
    (hbad : match intent.target with
      | none => True
      | some tid =>
        s.entities.find? (fun e => e.id == intent.actor) = none ∨
        s.entities.find? (fun e => e.id == tid) = none) :
    resolveAttack rng s intent attackRoll k = (s, [], k) := by
  rcases hts : intent.target with _ | tid
  · simp [resolveAttack, hts]
  · rw [hts] at hbad
    rcases hbad with hb | hb
    · simp [resolveAttack, hts, hb]
    · rcases hfa : s.entities.find? (fun e => e.id == intent.actor) with _ | attacker
      · simp [resolveAttack, hts, hfa]
      · simp [resolveAttack, hts, hfa, hb]

/-- C10: an attack action naming no resolvable target (or actor) is a
silent no-op for the player's phase — no events beyond `TURN_START`, no
entity mutation, no dice drawn — yet the turn cycle (enemy attacks, round
increment, status decay, end check) still runs. -/
theorem resolveAction_attack_without_target (rng : Nat → Nat) (state : CombatState)
    (intent : ActionIntent) (snap : Option PlayerSnapshot)
    (attackRoll : Option AttackRoll) (k : Nat)
    (hact : intent.action = ActionKind.attack)
    (hbad : match intent.target with
      | none => True
      | some tid =>
        (applySnapshot state snap).entities.find? (fun e => e.id == intent.actor) = none ∨
        (applySnapshot state snap).entities.find? (fun e => e.id == tid) = none)
    (hcont : (checkCombatEnd (applySnapshot state snap)).2.2 = false) :
    resolveActionState rng state intent snap attackRoll k =
      (let s0 := applySnapshot state snap
       let s1 : CombatState := { s0 with phase := CombatPhase.enemy_turn }
       let stepE := resolveEnemyTurn rng s1 k
       let s2 : CombatState :=
         { stepE.1 with round := stepE.1.round + 1, phase := CombatPhase.player_turn }
       let s3 : CombatState :=
         { s2 with entities := s2.entities.map (fun e => (clearExpiredStatuses e).1) }
       let decayEvents := s2.entities.flatMap (fun e => (clearExpiredStatuses e).2)
       let endB := checkCombatEnd s3
       let events :=
         [CombatEvent.turnStart intent.actor] ++ stepE.2.1 ++ decayEvents ++ endB.2.1
       (appendLog endB.1 events, events, stepE.2.2)) := by
  have hnoop : dispatchPlayerAction rng (applySnapshot state snap) intent attackRoll k =
      (applySnapshot state snap, [], k) := by
    simp only [dispatchPlayerAction, hact]
    exact resolveAttack_invalid_target_noop rng _ intent attackRoll k hbad
  have h : (checkCombatEnd
      (dispatchPlayerAction rng (applySnapshot state snap) intent attackRoll k).1).2.2
        = false := by
    rw [hnoop]; exact hcont
  have hc := resolveActionState_continue rng state intent snap attackRoll k h
  rw [hc]
  simp only [hnoop]
  simp

/-- The attack intent with no target at all. -/
def witNoTargetIntent : ActionIntent :=
  { action := ActionKind.attack, actor := "player", target := none, free_text := none }

/-- Witness for the targetless attack: the battle continues, the player
phase emits only `TURN_START`, and the round still increments. -/
theorem resolveAction_attack_without_target_witness :
    ((checkCombatEnd (applySnapshot witState none)).2.2 = false) ∧
    (resolveActionState (fun _ => 9) witState witNoTargetIntent none none 0).1.round = 2 :=
  ⟨by decide, by
    have h := resolveAction_attack_without_target (fun _ => 9) witState
      witNoTargetIntent none none 0 rfl trivial (by decide)
    rw [h]; decide⟩

/-- When the end check after the player's action reports an ended battle,
`resolveAction` stops at that check and appends the log. -/
theorem resolveActionState_ended (rng : Nat → Nat) (state : CombatState)
    (intent : ActionIntent) (snap : Option PlayerSnapshot)
    (attackRoll : Option AttackRoll) (k : Nat)
    (h : (checkCombatEnd
      (dispatchPlayerAction rng (applySnapshot state snap) intent attackRoll k).1).2.2
        = true) :
    resolveActionState rng state intent snap attackRoll k =
      (let s0 := applySnapshot state snap
       let stepA := dispatchPlayerAction rng s0 intent attackRoll k
       let endA := checkCombatEnd stepA.1
       let events := [CombatEvent.turnStart intent.actor] ++ stepA.2.1 ++ endA.2.1
       (appendLog endA.1 events, events, stepA.2.2)) := by
  simp only [resolveActionState, h]
  simp

/-- The spec invariant on one combat entity: `0 ≤ hp ≤ hp_max`. -/
def healthyEntity (e : CombatEntity) : Prop :=
  0 ≤ e.hp ∧ e.hp ≤ e.hp_max

instance (e : CombatEntity) : Decidable (healthyEntity e) :=
  inferInstanceAs (Decidable (0 ≤ e.hp ∧ e.hp ≤ e.hp_max))

/-- Clamping into `[0, hi]` lands in `[0, hi]` whenever `0 ≤ hi`. -/
theorem clamp_bounds (v hi : Int) (h : 0 ≤ hi) :
    0 ≤ clamp v 0 hi ∧ clamp v 0 hi ≤ hi :=
  ⟨le_max_left 0 _, max_le h (min_le_left hi v)⟩

/-- Members of `updateFirst p f l` are members of `l` or the image of a
member of `l`. -/
theorem updateFirst_mem {p : α → Bool} {f : α → α} :
    ∀ {l : List α} {x : α}, x ∈ updateFirst p f l → x ∈ l ∨ ∃ a, a ∈ l ∧ x = f a := by
  intro l
  induction l with
  | nil => intro x hx; simp [updateFirst] at hx
  | cons y ys ih =>
    intro x hx
    unfold updateFirst at hx
    by_cases hy : p y
    · simp [hy] at hx
      rcases hx with hx | hx
      · exact Or.inr ⟨y, List.mem_cons_self y ys, hx⟩
      · exact Or.inl (List.mem_cons_of_mem y hx)
    · simp [hy] at hx
      rcases hx with hx | hx
      · exact Or.inl (by simp [hx])
      · rcases ih hx with h | ⟨a, ha, hfa⟩
        · exact Or.inl (List.mem_cons_of_mem y h)
        · exact Or.inr ⟨a, List.mem_cons_of_mem y ha, hfa⟩

/-- Members of `updateFirst p f l` when the first match is known: each is
an untouched member of `l` or the image of that first match. -/
theorem updateFirst_mem_of_find {p : α → Bool} {f : α → α} :
    ∀ {l : List α} {a x : α}, l.find? p = some a → x ∈ updateFirst p f l →
      x ∈ l ∨ x = f a := by
  intro l
  induction l with
  | nil => intro a x hf; simp at hf
  | cons y ys ih =>
    intro a x hf hx
    unfold updateFirst at hx
    by_cases hy : p y
    · rw [List.find?_cons_of_pos _ hy] at hf
      injection hf with hf
      simp [hy] at hx
      rcases hx with hx | hx
      · exact Or.inr (hf ▸ hx)
      · exact Or.inl (List.mem_cons_of_mem y hx)
    · rw [List.find?_cons_of_neg _ hy] at hf
      simp [hy] at hx
      rcases hx with hx | hx
      · exact Or.inl (by simp [hx])
      · rcases ih hf hx with h | h
        · exact Or.inl (List.mem_cons_of_mem y h)
        · exact Or.inr h

/-- `resolveAttack` keeps every entity within `[0, hp_max]`. -/
theorem resolveAttack_healthy (rng : Nat → Nat) (s : CombatState)
    (intent : ActionIntent) (attackRoll : Option AttackRoll) (k : Nat)
    (h : ∀ e ∈ s.entities, healthyEntity e) :
    ∀ e ∈ (resolveAttack rng s intent attackRoll k).1.entities, healthyEntity e := by
  rcases hts : intent.target with _ | tid
  · simp only [resolveAttack, hts]; exact h
  · rcases hfa : s.entities.find? (fun e => e.id == intent.actor) with _ | attacker
    · simp only [resolveAttack, hts, hfa]; exact h
    · rcases hfb : s.entities.find? (fun e => e.id == tid) with _ | target
      · simp only [resolveAttack, hts, hfa, hfb]; exact h
      · simp only [resolveAttack, hts, hfa, hfb]
        have htgt := h target (List.mem_of_find?_eq_some hfb)
        have hmax : (0 : Int) ≤ target.hp_max := le_trans htgt.1 htgt.2
        repeat' split
        all_goals
          first
          | exact h
          | (intro e he
             simp only at he
             rcases updateFirst_mem_of_find hfb he with he' | he'
             · exact h e he'
             · rw [he']
               exact ⟨(clamp_bounds _ _ hmax).1, (clamp_bounds _ _ hmax).2⟩)

/-- `resolveDefend` keeps every entity within `[0, hp_max]`. -/
theorem resolveDefend_healthy (s : CombatState) (intent : ActionIntent)
    (h : ∀ e ∈ s.entities, healthyEntity e) :
    ∀ e ∈ (resolveDefend s intent).1.entities, healthyEntity e := by
  rcases hfa : s.entities.find? (fun e => e.id == intent.actor) with _ | actor
  · simp only [resolveDefend, hfa]; exact h
  · simp only [resolveDefend, hfa]
    split
    · exact h
    · intro e he
      rcases updateFirst_mem he with he' | ⟨a, ha, rfl⟩
      · exact h e he'
      · exact h a ha

/-- `dispatchPlayerAction` keeps every entity within `[0, hp_max]`. -/
theorem dispatchPlayerAction_healthy (rng : Nat → Nat) (s : CombatState)
    (intent : ActionIntent) (attackRoll : Option AttackRoll) (k : Nat)
    (h : ∀ e ∈ s.entities, healthyEntity e) :
    ∀ e ∈ (dispatchPlayerAction rng s intent attackRoll k).1.entities, healthyEntity e := by
  unfold dispatchPlayerAction
  rcases hia : intent.action <;> simp only [hia]
  case attack => exact resolveAttack_healthy rng s intent attackRoll k h
  case defend => exact resolveDefend_healthy s intent h
  case move => exact h
  case item => exact h
  case spell => exact h
  case attempt => exact h

/-- The end check never touches the entity list. -/
theorem checkCombatEnd_entities (s : CombatState) :
    (checkCombatEnd s).1.entities = s.entities := by
  rcases hfp : s.entities.find? (fun e => e.type == EntityType.player) with _ | player
  · simp only [checkCombatEnd, hfp]
  · simp only [checkCombatEnd, hfp]
    by_cases h1 : player.hp ≤ 0
    · simp [h1]
    · by_cases h2 : s.entities.any (fun e => e.type == EntityType.enemy && e.hp > 0) <;>
        simp [h1, h2]

/-- The MP patch of a snapshot never touches `hp` or `hp_max`. -/
theorem mpPatch_healthy (x : CombatEntity) (sn : PlayerSnapshot)
    (h : healthyEntity x) :
    healthyEntity (match sn.mp, x.mp, x.mp_max with
      | some m, some _, some mmax => { x with mp := some (clamp m 0 mmax) }
      | _, _, _ => x) := by
  rcases h1 : sn.mp with _ | m <;> rcases h2 : x.mp with _ | _ <;>
    rcases h3 : x.mp_max with _ | _ <;> simp only [h1, h2, h3] <;> exact h

/-- `applySnapshot` keeps every entity within `[0, hp_max]`. -/
theorem applySnapshot_healthy (s : CombatState) (snap : Option PlayerSnapshot)
    (h : ∀ e ∈ s.entities, healthyEntity e) :
    ∀ e ∈ (applySnapshot s snap).entities, healthyEntity e := by
  rcases snap with _ | sn
  · simp only [applySnapshot]; exact h
  · rcases hfp : s.entities.find? (fun e => e.type == EntityType.player) with _ | player
    · simp only [applySnapshot, hfp]; exact h
    · simp only [applySnapshot, hfp]
      intro e he
      rcases updateFirst_mem he with he' | ⟨a, ha, rfl⟩
      · exact h e he'
      · have ha' := h a ha
        have hmax : (0 : Int) ≤ a.hp_max := le_trans ha'.1 ha'.2
        rcases hhp : sn.hp with _ | v
        · simp only [hhp]
          exact mpPatch_healthy a sn ha'
        · simp only [hhp]
          exact mpPatch_healthy { a with hp := clamp v 0 a.hp_max } sn
            ⟨(clamp_bounds v a.hp_max hmax).1, (clamp_bounds v a.hp_max hmax).2⟩

/-- `resolveEnemyTurn` keeps every entity within `[0, hp_max]`. -/
theorem resolveEnemyTurn_healthy (rng : Nat → Nat) (s : CombatState) (k : Nat)
    (h : ∀ e ∈ s.entities, healthyEntity e) :
    ∀ e ∈ (resolveEnemyTurn rng s k).1.entities, healthyEntity e := by
  rcases hfp : s.entities.find? (fun e => e.type == EntityType.player) with _ | player
  · simp only [resolveEnemyTurn, hfp]; exact h
  · simp only [resolveEnemyTurn, hfp]
    generalize (s.entities.filter (fun e => e.type == EntityType.enemy && e.hp > 0)) = enemies
    have : ∀ (xs : List CombatEntity) (acc : CombatState × List CombatEvent × Nat),
        (∀ e ∈ acc.1.entities, healthyEntity e) →
        ∀ e ∈ (xs.foldl (fun (acc : CombatState × List CombatEvent × Nat) enemy =>
          let res := resolveAttack rng acc.1
            { action := ActionKind.attack, actor := enemy.id, target := some player.id,
              free_text := none } none acc.2.2
          (res.1, acc.2.1 ++ [CombatEvent.turnStart enemy.id] ++ res.2.1, res.2.2))
          acc).1.entities, healthyEntity e := by
      intro xs
      induction xs with
      | nil => intro acc hacc; exact hacc
      | cons x xs ih =>
        intro acc hacc
        rw [List.foldl_cons]
        exact ih _ (resolveAttack_healthy rng acc.1 _ none acc.2.2 hacc)
    exact this enemies (s, [], k) h

/-- C4: one `resolveAction` body call preserves `0 ≤ hp ≤ hp_max` for
every entity, across the snapshot application and every damage
application of the turn. -/
theorem resolveAction_hp_invariant (rng : Nat → Nat) (state : CombatState)
    (intent : ActionIntent) (snap : Option PlayerSnapshot)
    (attackRoll : Option AttackRoll) (k : Nat)
    (h : ∀ e ∈ state.entities, healthyEntity e) :
    ∀ e ∈ (resolveActionState rng state intent snap attackRoll k).1.entities,
      healthyEntity e := by
  have h0 := applySnapshot_healthy state snap h
  have h1 := dispatchPlayerAction_healthy rng (applySnapshot state snap) intent
    attackRoll k h0
  by_cases hend : (checkCombatEnd
      (dispatchPlayerAction rng (applySnapshot state snap) intent attackRoll k).1).2.2
        = true
  · rw [resolveActionState_ended rng state intent snap attackRoll k hend]
    simp only [appendLog]
    rw [checkCombatEnd_entities]
    exact h1
  · rw [resolveActionState_continue rng state intent snap attackRoll k
      (Bool.not_eq_true _ ▸ hend)]
    simp only [appendLog]
    rw [checkCombatEnd_entities]
    intro e he
    simp only [List.mem_map] at he
    rcases he with ⟨a, ha, rfl⟩
    have h2 := resolveEnemyTurn_healthy rng
      { (dispatchPlayerAction rng (applySnapshot state snap) intent attackRoll k).1
        with phase := CombatPhase.enemy_turn }
      (dispatchPlayerAction rng (applySnapshot state snap) intent attackRoll k).2.2
      h1
    exact h2 a ha

/-- Witness for the HP invariant: the concrete healthy battle stays
healthy through a full attack turn. -/
theorem resolveAction_hp_invariant_witness :
    (∀ e ∈ witState.entities, healthyEntity e) ∧
    (∀ e ∈ (resolveActionState (fun _ => 9) witState witAttackIntent none
      (some witRoll2) 0).1.entities, healthyEntity e) :=
  ⟨by decide, resolveAction_hp_invariant (fun _ => 9) witState witAttackIntent none
    (some witRoll2) 0 (by decide)⟩

/-- Key-uniqueness of an association list, the invariant a JS `Map` keeps. -/
def keysNodup (m : List (String × α)) : Prop :=
  (m.map Prod.fst).Nodup

/-- Keys after `mapSet` are the old keys plus possibly the set key. -/
theorem mapSet_keys_mem (k : String) (v : α) (m : List (String × α)) (x : String) :
    x ∈ (mapSet k v m).map Prod.fst → x = k ∨ x ∈ m.map Prod.fst := by
  induction m with
  | nil =>
    intro h
    simp only [mapSet, List.map_cons, List.map_nil, List.mem_cons,
      List.not_mem_nil, or_false] at h
    exact Or.inl h
  | cons y ys ih =>
    intro h
    unfold mapSet at h
    split at h
    · simp only [List.map_cons, List.mem_cons] at h
      rcases h with h | h
      · right; rw [List.map_cons, h]; exact List.mem_cons_self _ _
      · right; rw [List.map_cons]; exact List.mem_cons_of_mem _ h
    · simp only [List.map_cons, List.mem_cons] at h
      rcases h with h | h
      · right; rw [List.map_cons, h]; exact List.mem_cons_self _ _
      · rcases ih h with h' | h'
        · exact Or.inl h'
        · right; rw [List.map_cons]; exact List.mem_cons_of_mem _ h'

/-- `mapSet` preserves key uniqueness. -/
theorem mapSet_keys_nodup (k : String) (v : α) (m : List (String × α))
    (h : keysNodup m) : keysNodup (mapSet k v m) := by
  induction m with
  | nil => simp [keysNodup, mapSet]
  | cons y ys ih =>
    unfold keysNodup at h ⊢
    simp only [List.map_cons, List.nodup_cons] at h
    unfold mapSet
    by_cases hk : y.1 == k
    · simp only [hk, if_true, List.map_cons, List.nodup_cons]
      exact ⟨h.1, h.2⟩
    · simp only [hk]
      simp only [Bool.false_eq_true, if_false, List.map_cons, List.nodup_cons]
      constructor
      · intro hmem
        rcases mapSet_keys_mem k v ys y.1 hmem with h' | h'
        · exact absurd (by simp [h'] : (y.1 == k) = true) (by simp [hk])
        · exact h.1 h'
      · exact ih h.2

/-- Deleting can only remove keys. -/
theorem mapDelete_keys_mem (k : String) (m : List (String × α)) (x : String) :
    x ∈ (mapDelete k m).map Prod.fst → x ∈ m.map Prod.fst := by
  induction m with
  | nil => intro h; simp [mapDelete] at h
  | cons y ys ih =>
    intro h
    unfold mapDelete at h
    split at h
    · rw [List.map_cons]
      exact List.mem_cons_of_mem _ h
    · simp only [List.map_cons, List.mem_cons] at h
      rcases h with h | h
      · rw [List.map_cons, h]; exact List.mem_cons_self _ _
      · rw [List.map_cons]; exact List.mem_cons_of_mem _ (ih h)

/-- `mapDelete` preserves key uniqueness. -/
theorem mapDelete_keys_nodup (k : String) (m : List (String × α))
    (h : keysNodup m) : keysNodup (mapDelete k m) := by
  induction m with
  | nil => simp [keysNodup, mapDelete]
  | cons y ys ih =>
    unfold keysNodup at h ⊢
    simp only [List.map_cons, List.nodup_cons] at h
    unfold mapDelete
    by_cases hk : y.1 == k
    · simp only [hk, if_true]
      exact h.2
    · simp only [hk, Bool.false_eq_true, if_false, List.map_cons, List.nodup_cons]
      exact ⟨fun hmem => h.1 (mapDelete_keys_mem k ys y.1 hmem), ih h.2⟩

/-- A key absent from the key list is counted zero times. -/
theorem countKey_eq_zero_of_not_mem (k : String) (m : List (String × α))
    (h : k ∉ m.map Prod.fst) : countKey k m = 0 := by
  induction m with
  | nil => rfl
  | cons y ys ih =>
    simp only [List.map_cons, List.mem_cons] at h
    push_neg at h
    unfold countKey List.filter
    have : (y.1 == k) = false := by
      simp
      intro hk
      exact h.1 hk.symm
    rw [this]
    exact ih h.2

/-- Under key uniqueness every key is bound at most once. -/
theorem countKey_le_one (k : String) (m : List (String × α))
    (h : keysNodup m) : countKey k m ≤ 1 := by
  induction m with
  | nil => simp [countKey]
  | cons y ys ih =>
    unfold keysNodup at h
    simp only [List.map_cons, List.nodup_cons] at h
    unfold countKey List.filter
    by_cases hk : y.1 == k
    · rw [hk]
      simp only [List.length_cons]
      have : countKey k ys = 0 := by
        apply countKey_eq_zero_of_not_mem
        intro hmem
        exact h.1 (by simpa [show y.1 = k from by simpa using hk] using hmem)
      unfold countKey at this
      omega
    · simp only [hk]
      exact ih h.2

/-- The roll-resolution branch only deletes from `pendingChecks`. -/
theorem resolveRollBranch_pendingChecks (now : Int) (rng : Nat → Nat)
    (campaignKey : String) (req : DmRequest) (pending : PendingCheck)
    (rollResult : RollResult) (s : ServerState) :
    (resolveRollBranch now rng campaignKey req pending rollResult s).1.pendingChecks =
      mapDelete campaignKey s.pendingChecks := by
  unfold resolveRollBranch
  dsimp only
  (repeat' split) <;> rfl

/-- The classification branch leaves `pendingChecks` unchanged or stores
one check under the campaign key. -/
theorem classifyBranch_pendingChecks
    (classify : Option LastResolvedAction → ClassifyOutcome) (now : Int)
    (lra : Option LastResolvedAction) (campaignKey : String)
    (characterName : Option String) (s : ServerState) :
    (classifyBranch classify now lra campaignKey characterName s).1.pendingChecks =
      s.pendingChecks ∨
    ∃ pc, (classifyBranch classify now lra campaignKey characterName s).1.pendingChecks =
      mapSet campaignKey pc s.pendingChecks := by
  unfold classifyBranch
  dsimp only
  repeat' split
  all_goals first
    | exact Or.inl rfl
    | exact Or.inr ⟨_, rfl⟩

/-- One `/dm-response` step preserves key uniqueness of `pendingChecks`. -/
theorem dmStep_pendingChecks_nodup
    (classify : Option LastResolvedAction → ClassifyOutcome) (now : Int)
    (rng : Nat → Nat) (req : DmRequest) (s : ServerState)
    (h : keysNodup s.pendingChecks) :
    keysNodup (dmStep classify now rng req s).1.pendingChecks := by
  have hclassify : ∀ (lra : Option LastResolvedAction) (s' : ServerState),
      keysNodup s'.pendingChecks →
      keysNodup (classifyBranch classify now lra (req.campaignId.getD "default")
        req.characterName s').1.pendingChecks := by
    intro lra s' h'
    rcases classifyBranch_pendingChecks classify now lra (req.campaignId.getD "default")
      req.characterName s' with heq | ⟨pc, heq⟩
    · rw [heq]; exact h'
    · rw [heq]; exact mapSet_keys_nodup _ pc _ h'
  unfold dmStep
  dsimp only
  rcases req.rollResult with _ | rr
  · exact hclassify _ _ h
  · rcases req.pendingCheckId with _ | cid
    · exact hclassify _ _ h
    · rcases mapGet (req.campaignId.getD "default") s.pendingChecks with _ | p
      · exact hclassify _ _ h
      · dsimp only
        by_cases hid : p.id = cid
        · rw [if_pos hid]
          rw [resolveRollBranch_pendingChecks]
          exact mapDelete_keys_nodup _ _ h
        · rw [if_neg hid]
          exact hclassify _ _ h

/-- Every reachable server state keeps the pending-check keys unique. -/
theorem reachable_pendingChecks_nodup (s : ServerState) (h : ReachableState s) :
    keysNodup s.pendingChecks := by
  induction h with
  | init => simp [keysNodup]
  | dm classify now rng req s' _ ih => exact dmStep_pendingChecks_nodup classify now rng req s' ih
  | battleOnly b s' _ ih => exact ih

/-- C5: in every reachable server state, each campaign holds at most one
`PendingCheck`: created by a roll-requiring decision, deleted when its roll
resolves, always stored under the campaign key. -/
theorem pendingChecks_at_most_one (s : ServerState) (h : ReachableState s)
    (campaign : String) : countKey campaign s.pendingChecks ≤ 1 :=
  countKey_le_one campaign s.pendingChecks (reachable_pendingChecks_nodup s h)

/-- The check stored by the witness classification outcome. -/
def witCheck : PendingCheck :=
  { id := "check_1", ctype := "skill", actor := "player", target := none
    targetLabel := none, stat := some "DEX", difficulty := some 12
    context := "sneak past the guard", reason := "stealth attempt"
    actionLabel := some "sneak past", domain := some "stealth", skill := none
    intentType := some "ACTION_NOW" }

/-- A roll-requiring classification outcome for the witness. -/
def witOutcome : ClassifyOutcome :=
  { decision :=
      { intentType := "ACTION_NOW", domain := "stealth", shouldRoll := true
        stat := some "DEX", skill := none, dc := some 12
        actionLabel := "sneak past" }
    builtCheck := some witCheck }

/-- The witness `/dm-response` request carrying no roll result. -/
def witReq : DmRequest :=
  { campaignId := some "camp", playerAction := "I sneak past the guard"
    rollResult := none, pendingCheckId := none, playerSnapshot := none
    characterName := some "Hero" }

/-- The server state after one check-creating `/dm-response` step. -/
def witServer1 : ServerState :=
  (dmStep (fun _ => witOutcome) 0 (fun _ => 0) witReq ⟨[], [], []⟩).1

/-- Witness for the uniqueness invariant: after a step that creates a
check, the campaign holds exactly one, and at most one. -/
theorem pendingChecks_at_most_one_witness :
    countKey "camp" witServer1.pendingChecks ≤ 1 ∧
    countKey "camp" witServer1.pendingChecks = 1 :=
  ⟨pendingChecks_at_most_one witServer1
    (ReachableState.dm (fun _ => witOutcome) 0 (fun _ => 0) witReq ⟨[], [], []⟩
      ReachableState.init) "camp",
   by decide⟩

/-- The classification path never produces an error response. -/
theorem classifyBranch_not_failure
    (classify : Option LastResolvedAction → ClassifyOutcome) (now : Int)
    (lra : Option LastResolvedAction) (campaignKey : String)
    (characterName : Option String) (s : ServerState) (msg : String) :
    (classifyBranch classify now lra campaignKey characterName s).2 ≠
      DmResponse.failure msg := by
  unfold classifyBranch
  dsimp only
  repeat' split
  all_goals exact fun hcon => DmResponse.noConfusion hcon

/-- C6: a roll result whose `pendingCheckId` matches no stored check for
the campaign is ignored: the request behaves exactly as if it carried no
roll result at all — same state, same response — and raises no error. -/
theorem stray_roll_result_noop
    (classify : Option LastResolvedAction → ClassifyOutcome) (now : Int)
    (rng : Nat → Nat) (req : DmRequest) (s : ServerState) (rr : RollResult)
    (cid : String)
    (h1 : req.rollResult = some rr) (h2 : req.pendingCheckId = some cid)
    (h3 : ∀ p, mapGet (req.campaignId.getD "default") s.pendingChecks = some p →
      p.id ≠ cid) :
    dmStep classify now rng req s =
      dmStep classify now rng
        { req with rollResult := none, pendingCheckId := none } s ∧
    ∀ msg, (dmStep classify now rng req s).2 ≠ DmResponse.failure msg := by
  have hEq : dmStep classify now rng req s =
      dmStep classify now rng
        { req with rollResult := none, pendingCheckId := none } s := by
    unfold dmStep
    rw [h1, h2]
    dsimp only
    rcases hpc : mapGet (req.campaignId.getD "default") s.pendingChecks with _ | p
    · rfl
    · dsimp only
      rw [if_neg (h3 p hpc)]
  have hNoFail : ∀ msg,
      (dmStep classify now rng
        { req with rollResult := none, pendingCheckId := none } s).2 ≠
        DmResponse.failure msg := by
    intro msg
    unfold dmStep
    dsimp only
    exact classifyBranch_not_failure _ _ _ _ _ _ msg
  exact ⟨hEq, fun msg => by rw [hEq]; exact hNoFail msg⟩

/-- The witness stray request: a roll result with an id no stored check
carries. -/
def witStrayReq : DmRequest :=
  { campaignId := some "camp", playerAction := "I strike"
    rollResult := some { total := some 15, result := none, d20 := some 10
                         bonus := some 5, dc := none, success := true, label := none }
    pendingCheckId := some "check_gone", playerSnapshot := none
    characterName := some "Hero" }

/-- Witness for the stray-roll no-op at a state with no stored check. -/
theorem stray_roll_result_noop_witness :
    dmStep (fun _ => witOutcome) 0 (fun _ => 0) witStrayReq ⟨[], [], []⟩ =
      dmStep (fun _ => witOutcome) 0 (fun _ => 0)
        { witStrayReq with rollResult := none, pendingCheckId := none } ⟨[], [], []⟩ :=
  (stray_roll_result_noop (fun _ => witOutcome) 0 (fun _ => 0) witStrayReq
    ⟨[], [], []⟩ _ "check_gone" rfl rfl
    (fun p hp => by simp [mapGet] at hp)).1

/-- The canonical-output contract: the id is in the fixed catalog, the
canonical definition for the id and severity supplied the mechanical
fields, and exhaustion/corruption severities stay inside 1-6 / 1-3. -/
def canonicalOutput (e : StatusEffect) : Prop :=
  (canonicalStatusMap e.id).isSome ∧
  (∃ d, buildStatusDefinition e.id e.severity = some d ∧
    e.mechanics = d.mechanics ∧ e.modifiers = d.modifiers ∧
    e.restrictions = d.restrictions ∧ e.narrationCues = d.narrationCues) ∧
  (e.id = "exhaustion" → ∃ l, e.severity = some l ∧ 1 ≤ l ∧ l ≤ 6) ∧
  (e.id = "corruption" → ∃ t, e.severity = some t ∧ 1 ≤ t ∧ t ≤ 3)

/-- Every hit of `canonicalStatusMap` returns its own key and hits again
on the returned id. -/
theorem canonicalStatusMap_idem (r : String) (c : String × String × StatusType)
    (h : canonicalStatusMap r = some c) :
    c.1 = r ∧ canonicalStatusMap c.1 = some c := by
  by_cases h0 : r = "poisoned"
  · subst h0
    rw [show canonicalStatusMap "poisoned" = some ("poisoned", "Poisoned", StatusType.condition) from rfl] at h
    cases h
    exact ⟨rfl, rfl⟩
  by_cases h1 : r = "blinded"
  · subst h1
    rw [show canonicalStatusMap "blinded" = some ("blinded", "Blinded", StatusType.condition) from rfl] at h
    cases h
    exact ⟨rfl, rfl⟩
  by_cases h2 : r = "charmed"
  · subst h2
    rw [show canonicalStatusMap "charmed" = some ("charmed", "Charmed", StatusType.condition) from rfl] at h
    cases h
    exact ⟨rfl, rfl⟩
  by_cases h3 : r = "frightened"
  · subst h3
    rw [show canonicalStatusMap "frightened" = some ("frightened", "Frightened", StatusType.condition) from rfl] at h
    cases h
    exact ⟨rfl, rfl⟩
  by_cases h4 : r = "paralyzed"
  · subst h4
    rw [show canonicalStatusMap "paralyzed" = some ("paralyzed", "Paralyzed", StatusType.condition) from rfl] at h
    cases h
    exact ⟨rfl, rfl⟩
  by_cases h5 : r = "restrained"
  · subst h5
    rw [show canonicalStatusMap "restrained" = some ("restrained", "Restrained", StatusType.condition) from rfl] at h
    cases h
    exact ⟨rfl, rfl⟩
  by_cases h6 : r = "stunned"
  · subst h6
    rw [show canonicalStatusMap "stunned" = some ("stunned", "Stunned", StatusType.condition) from rfl] at h
    cases h
    exact ⟨rfl, rfl⟩
  by_cases h7 : r = "unconscious"
  · subst h7
    rw [show canonicalStatusMap "unconscious" = some ("unconscious", "Unconscious", StatusType.condition) from rfl] at h
    cases h
    exact ⟨rfl, rfl⟩
  by_cases h8 : r = "invisible"
  · subst h8
    rw [show canonicalStatusMap "invisible" = some ("invisible", "Invisible", StatusType.condition) from rfl] at h
    cases h
    exact ⟨rfl, rfl⟩
  by_cases h9 : r = "inspired"
  · subst h9
    rw [show canonicalStatusMap "inspired" = some ("inspired", "Inspired", StatusType.buff) from rfl] at h
    cases h
    exact ⟨rfl, rfl⟩
  by_cases h10 : r = "blessed"
  · subst h10
    rw [show canonicalStatusMap "blessed" = some ("blessed", "Blessed", StatusType.buff) from rfl] at h
    cases h
    exact ⟨rfl, rfl⟩
  by_cases h11 : r = "cursed"
  · subst h11
    rw [show canonicalStatusMap "cursed" = some ("cursed", "Cursed", StatusType.debuff) from rfl] at h
    cases h
    exact ⟨rfl, rfl⟩
  by_cases h12 : r = "bleeding"
  · subst h12
    rw [show canonicalStatusMap "bleeding" = some ("bleeding", "Bleeding", StatusType.debuff) from rfl] at h
    cases h
    exact ⟨rfl, rfl⟩
  by_cases h13 : r = "madness"
  · subst h13
    rw [show canonicalStatusMap "madness" = some ("madness", "Madness", StatusType.debuff) from rfl] at h
    cases h
    exact ⟨rfl, rfl⟩
  by_cases h14 : r = "fear"
  · subst h14
    rw [show canonicalStatusMap "fear" = some ("fear", "Fear", StatusType.debuff) from rfl] at h
    cases h
    exact ⟨rfl, rfl⟩
  by_cases h15 : r = "corruption"
  · subst h15
    rw [show canonicalStatusMap "corruption" = some ("corruption", "Corruption", StatusType.debuff) from rfl] at h
    cases h
    exact ⟨rfl, rfl⟩
  by_cases h16 : r = "exhaustion"
  · subst h16
    rw [show canonicalStatusMap "exhaustion" = some ("exhaustion", "Exhaustion", StatusType.debuff) from rfl] at h
    cases h
    exact ⟨rfl, rfl⟩
  have hn : canonicalStatusMap r = none := by
    simp [canonicalStatusMap, h0, h1, h2, h3, h4, h5, h6, h7, h8, h9, h10, h11, h12, h13, h14, h15, h16]
  rw [hn] at h
  exact Option.noConfusion h

/-- What the id-normalization branch of `normalizeEntry` can produce: an
exhaustion level in 1-6, a corruption tier in 1-3, or a catalog row. -/
theorem branchTuple_ok (rawId rawName : String) (sev : Option Int)
    (t : String × String × Option Int × StatusType)
    (heq : (if (matchLead "exhaustion".data rawId.data ||
          containsSub "exhaustion" (strLower rawName)) = true then
        match (match firstNumber rawId with
          | some n => some (n : Int)
          | none =>
            match firstNumber rawName with
            | some n => some (n : Int)
            | none => sev) with
        | none => none
        | some l =>
          if (decide (l < 1) || decide (l > 6)) = true then none
          else some ("exhaustion", "Exhaustion (Level " ++ toString l ++ ")",
            some l, StatusType.debuff)
      else if (matchLead "corruption".data rawId.data ||
          containsSub "corruption" (strLower rawName)) = true then
        match (match firstNumber rawId with
          | some n => some (n : Int)
          | none =>
            match firstNumber rawName with
            | some n => some (n : Int)
            | none => sev) with
        | none => none
        | some l =>
          if (decide (l < 1) || decide (l > 3)) = true then none
          else some ("corruption", "Corruption (Tier " ++ toString l ++ ")",
            some l, StatusType.debuff)
      else
        match canonicalStatusMap rawId with
        | none => none
        | some (cid, cname, ctype) => some (cid, cname, sev, ctype)) = some t) :
    (canonicalStatusMap t.1).isSome ∧
    (t.1 = "exhaustion" → ∃ l, t.2.2.1 = some l ∧ 1 ≤ l ∧ l ≤ 6) ∧
    (t.1 = "corruption" → ∃ l, t.2.2.1 = some l ∧ 1 ≤ l ∧ l ≤ 3) := by
  split at heq
  · split at heq
    · exact Option.noConfusion heq
    · rename_i l hleq
      split at heq
      · exact Option.noConfusion heq
      · rename_i hbound
        cases heq
        refine ⟨by rfl, fun _ => ⟨l, rfl, ?_, ?_⟩, fun hc => by simp at hc⟩
        · simp at hbound; omega
        · simp at hbound; omega
  · split at heq
    · split at heq
      · exact Option.noConfusion heq
      · rename_i l hleq
        split at heq
        · exact Option.noConfusion heq
        · rename_i hbound
          cases heq
          refine ⟨by rfl, fun hc => by simp at hc, fun _ => ⟨l, rfl, ?_, ?_⟩⟩
          · simp at hbound; omega
          · simp at hbound; omega
    · rename_i gexh gcor
      split at heq
      · exact Option.noConfusion heq
      · rename_i cid cname ctype hmap
        cases heq
        have hid := canonicalStatusMap_idem rawId (cid, cname, ctype) hmap
        refine ⟨?_, ?_, ?_⟩
        · show (canonicalStatusMap cid).isSome
          rw [hid.2]
          rfl
        · intro hc
          exfalso
          apply gexh
          have hre : rawId = "exhaustion" := by
            rw [← hid.1]; exact hc
          rw [hre]
          rfl
        · intro hc
          exfalso
          apply gcor
          have hrc : rawId = "corruption" := by
            rw [← hid.1]; exact hc
          rw [hrc]
          rfl

/-- Every entry `normalizeEntry` lets through satisfies the canonical
contract. -/
theorem normalizeEntry_canonical (o : Option ProposedEntry) (e : StatusEffect)
    (h : normalizeEntry o = some e) : canonicalOutput e := by
  rcases o with _ | entry
  · simp [normalizeEntry] at h
  · unfold normalizeEntry at h
    dsimp only at h
    repeat' split at h
    all_goals (try exact Option.noConfusion h)
    all_goals cases h
    all_goals
      have hb := branchTuple_ok _ _ _ _ (by assumption)
    all_goals
      exact ⟨hb.1, ⟨_, by assumption, rfl, rfl, rfl, rfl⟩, hb.2.1, hb.2.2⟩

/-- The proposal entry of the counterexample: raw id `exhaustion_3`. -/
def propEx : ProposedEntry :=
  { id := some "exhaustion_3", name := some "Exhaustion 3"
    mechanics := some "disadvantage on attack rolls", trigger := some "on hit"
    cure := some "long rest"
    duration := some { dtype := some "scene", value := none } }

/-- The active-status state of the counterexample: `exhaustion` active. -/
def stEx : StatusStateInput :=
  { active_statuses := [
      { id := "exhaustion", name := "Exhaustion (Level 1)"
        stype := StatusType.debuff, mechanics := "x", trigger := "t"
        modifiers := {}, restrictions := {}, narrationCues := []
        durationType := "scene", durationValue := none, cure := "rest"
        source := none, severity := some 1, appliedAt := none }] }

/-- The payload of the counterexample. -/
def payEx : StatusPayloadIn := { apply := [some propEx] }

/-- C8 counterexample: the proposal id `exhaustion_3` is not among the
active ids, so it survives the active-id filter, yet it canonicalizes to
`exhaustion`, which is already active — the returned `apply` entry carries
an id that is already active. -/
theorem normalize_active_alias_counterexample :
    (normalizeStatusUpdate payEx stEx).apply.map (·.id) = ["exhaustion"] ∧
    stEx.active_statuses.map (·.id) = ["exhaustion"] := by
  exact ⟨rfl, rfl⟩

/-- The one-new-status cap keeps at most one element. -/
theorem capLen (p2 : List α) : (if p2.length > 1 then p2.take 1 else p2).length ≤ 1 := by
  by_cases hl : p2.length > 1
  · rw [if_pos hl]; simp [List.length_take]
  · rw [if_neg hl]; omega

/-- The one-new-status cap only drops elements. -/
theorem capSubset (p2 : List α) : (if p2.length > 1 then p2.take 1 else p2) ⊆ p2 := by
  by_cases hl : p2.length > 1
  · rw [if_pos hl]; exact List.take_subset 1 p2
  · rw [if_neg hl]; exact fun _ h => h

/-- C8 amended: `normalizeStatusUpdate` returns at most one `apply` entry;
each came from a proposal entry whose raw id was not among the active ids
(the dedup keys on the proposal id, not the canonical id); and every
returned `apply` or `update` entry satisfies the canonical contract —
catalog id, canonical mechanics, modifiers, restrictions and narration
cues, exhaustion level in 1-6, corruption tier in 1-3. -/
theorem normalizeStatusUpdate_canonical (payload : StatusPayloadIn)
    (statusState : StatusStateInput) :
    (normalizeStatusUpdate payload statusState).apply.length ≤ 1 ∧
    (∀ e ∈ (normalizeStatusUpdate payload statusState).apply,
      ∃ raw, some raw ∈ payload.apply ∧ truthyS raw.id ∧ truthyS raw.name ∧
        ((statusState.active_statuses.map (·.id)).contains (raw.id.getD "")) = false ∧
        normalizeEntry (some raw) = some e) ∧
    (∀ e ∈ (normalizeStatusUpdate payload statusState).apply ++
        (normalizeStatusUpdate payload statusState).update, canonicalOutput e) := by
  unfold normalizeStatusUpdate
  dsimp only
  refine ⟨?_, ?_, ?_⟩
  · exact le_trans (List.length_filterMap_le _ _) (capLen _)
  · intro e he
    rw [List.mem_filterMap] at he
    obtain ⟨o, ho, hno⟩ := he
    have ho2 := capSubset _ ho
    rw [List.mem_filter] at ho2
    obtain ⟨ho1, hf2⟩ := ho2
    rw [List.mem_filter] at ho1
    obtain ⟨hraw, hf1⟩ := ho1
    rcases o with _ | raw
    · simp at hf1
    · simp only at hf1 hf2
      rw [Bool.and_eq_true] at hf1
      refine ⟨raw, hraw, hf1.1, hf1.2, ?_, hno⟩
      simpa using hf2
  · intro e he
    rw [List.mem_append] at he
    rcases he with he | he
    · rw [List.mem_filterMap] at he
      obtain ⟨o, _, hno⟩ := he
      exact normalizeEntry_canonical o e hno
    · rw [List.mem_filterMap] at he
      obtain ⟨o, _, hno⟩ := he
      exact normalizeEntry_canonical o e hno

/-- The entry the normalizer returns for the counterexample payload. -/
def witNormalized : StatusEffect :=
  { id := "exhaustion", name := "Exhaustion (Level 3)"
    stype := StatusType.debuff
    mechanics := "Level 1: ability checks disadvantage. Level 2: speed halved. Level 3: attack rolls and saves disadvantage. Level 4: HP max halved. Level 5: speed 0. Level 6: death."
    trigger := "on hit"
    modifiers := { attackRolls := some "dis", savingThrows := some "dis" }
    restrictions := {}
    narrationCues := ["heavy limbs", "shaking", "collapse"]
    durationType := "scene", durationValue := none
    cure := "long rest", source := none, severity := some 3, appliedAt := none }

/-- Witness for the amended normalizer contract, at the counterexample
input: at most one `apply` entry, and the returned entry satisfies the
canonical contract. -/
theorem normalizeStatusUpdate_canonical_witness :
    (normalizeStatusUpdate payEx stEx).apply.length ≤ 1 ∧
    canonicalOutput witNormalized :=
  ⟨(normalizeStatusUpdate_canonical payEx stEx).1,
   (normalizeStatusUpdate_canonical payEx stEx).2.2 witNormalized
    (by rw [show (normalizeStatusUpdate payEx stEx).apply ++
        (normalizeStatusUpdate payEx stEx).update = [witNormalized] from rfl]
        exact List.mem_singleton_self _)⟩
